import Mathlib

/-!
Verification model of the athlete-monitor dashboard's telemetry engine.

The definitions below are a shallow embedding of the JavaScript modules
`js/storage.js` (StorageManager), `js/websocket.js` (WebSocketManager),
`js/dashboard.js` (DashboardController) and `js/charts.js` (ChartManager).

Modelling conventions:
* JavaScript numbers are idealized as exact integers (`Int`) for stored
  sample values and as exact rationals (`Rat`) where the code divides or
  compares; `JNum` adds the distinguished `NaN` value that `typeof` still
  reports as a number.
* Values decoded from JSON (by `JSON.parse`) are modelled by the `Json`
  inductive; `JSON.parse` itself is modelled by the executable `parseJson`
  and `JSON.stringify(x, null, 2)` by `stringify2`.
* Environment reads (`Date.now()`, `toISOString()`) are passed in as
  explicit arguments.
* `localStorage` writes are modelled in `persistFuel` by a size quota:
  a write succeeds exactly when the serialized document fits the quota,
  mirroring `QuotaExceededError`.
-/

/-- A JavaScript number as seen by `typeof`: either NaN or an (idealized
integer) value.  `typeof NaN === 'number'`, so the validator accepts NaN. -/
inductive JNum where
  | nan
  | val (n : Int)
deriving DecidableEq

/-- Models the JavaScript `isNaN` test on a number. -/
def JNum.isNaN : JNum → Bool
  | .nan => true
  | .val _ => false

/-- The numeric value of a non-NaN number, `none` for NaN.  Used to model
`.filter(v => !isNaN(v))`: the kept elements are exactly the non-NaN
entries, carried as their integer values. -/
def JNum.toInt? : JNum → Option Int
  | .nan => none
  | .val n => some n

/-- Models JavaScript `Math.max(a, b)`: NaN-propagating maximum. -/
def JNum.jmax : JNum → JNum → JNum
  | .val a, .val b => .val (max a b)
  | _, _ => .nan

/-- A JSON value, the exact domain of `JSON.parse` results (which can
produce neither NaN nor `undefined`). -/
inductive Json where
  | null
  | bool (b : Bool)
  | num (n : Int)
  | str (s : String)
  | arr (elems : List Json)
  | obj (fields : List (String × Json))

/-- Models JavaScript `Math.round` on an exact rational: round half toward
positive infinity, `⌊q + 1/2⌋`. -/
def jsRound (q : Rat) : Int := (q + 1/2).floor

/-! ## Ingestion validator (`js/websocket.js`, `WebSocketManager.validateData`) -/

/-- Models `typeof d === 'object'`: true for objects, arrays and `null`. -/
def typeofIsObject : Json → Bool
  | .null => true
  | .arr _ => true
  | .obj _ => true
  | _ => false

/-- Models `d === null`. -/
def Json.isNull : Json → Bool
  | .null => true
  | _ => false

/-- Models the property read `d.k` on a decoded value: a lookup on objects,
`undefined` (here `none`) on arrays and primitives.  (`null.k` would throw,
but the validator's `&&` chain never reaches a property read on `null`.) -/
def getField (d : Json) (k : String) : Option Json :=
  match d with
  | .obj fs => fs.lookup k
  | _ => none

/-- Models `typeof x === 'number'` on a property-read result. -/
def typeofNumber : Option Json → Bool
  | some (.num _) => true
  | _ => false

/-- Models `typeof x === 'string'` on a property-read result. -/
def typeofString : Option Json → Bool
  | some (.str _) => true
  | _ => false

/-- Models `typeof x === 'boolean'` on a property-read result. -/
def typeofBoolean : Option Json → Bool
  | some (.bool _) => true
  | _ => false

/-- `WebSocketManager.validateData` (websocket.js lines 197-208), translated
clause by clause. -/
def validateData (d : Json) : Bool :=
  typeofIsObject d && !d.isNull &&
  typeofNumber (getField d "heartRate") &&
  typeofNumber (getField d "spO2") &&
  typeofNumber (getField d "squatCount") &&
  typeofString (getField d "postureStatus") &&
  typeofBoolean (getField d "fingerDetected") &&
  typeofBoolean (getField d "fallDetected")

/-! ## Session store data model (`js/storage.js`) -/

/-- A validated wire payload: the six fields `validateData` checked.  The
numeric fields are `JNum` because `typeof NaN === 'number'` — the validator
constrains only the `typeof` of each field. -/
structure Payload where
  heartRate : JNum
  spO2 : JNum
  squatCount : JNum
  postureStatus : String
  fingerDetected : Bool
  fallDetected : Bool
deriving DecidableEq

/-- One stored reading: `{ timestamp, date, ...data }` as built by
`StorageManager.saveReading` (storage.js lines 340-345). -/
structure Reading where
  timestamp : Int
  date : String
  heartRate : JNum
  spO2 : JNum
  squatCount : JNum
  postureStatus : String
  fingerDetected : Bool
  fallDetected : Bool
deriving DecidableEq

/-- The session metadata object.  `none` models both an absent key and a
stored `null` where the code never distinguishes them; `lastUpdate` is
absent until the first `saveReading`. -/
structure SessionMetadata where
  sessionStart : Option Int
  sessionEnd : Option Int
  totalReadings : Nat
  exportTimestamp : Option Int
  lastUpdate : Option Int
deriving DecidableEq

/-- The in-memory `this.sessionData` document. -/
structure SessionData where
  data : List Reading
  metadata : SessionMetadata
deriving DecidableEq

/-- The default session created by `loadSessionData` when nothing valid is
stored (storage.js lines 325-333). -/
def emptySession : SessionData :=
  { data := []
    metadata :=
      { sessionStart := none, sessionEnd := none, totalReadings := 0
        exportTimestamp := none, lastUpdate := none } }

/-- `this.maxStorageItems` (storage.js line 302). -/
def maxStorageItems : Nat := 1000

/-- Models the JavaScript falsiness test `!this.sessionData.metadata.sessionStart`:
`null`/`undefined` and the number `0` are falsy. -/
def startUnset : Option Int → Bool
  | none => true
  | some n => n == 0

/-- `StorageManager.saveReading` (storage.js lines 339-363): build the
reading, push it, evict the oldest when over capacity, update metadata.
`ts` models `Date.now()` and `date` models `new Date(ts).toISOString()`;
the final `this.persist()` call touches only external storage and is
modelled separately by `persistFuel`. -/
def saveReading (sd : SessionData) (ts : Int) (date : String) (p : Payload) :
    SessionData :=
  let reading : Reading :=
    { timestamp := ts, date := date, heartRate := p.heartRate, spO2 := p.spO2
      squatCount := p.squatCount, postureStatus := p.postureStatus
      fingerDetected := p.fingerDetected, fallDetected := p.fallDetected }
  let pushed := sd.data ++ [reading]
  let limited := if pushed.length > maxStorageItems then pushed.tail else pushed
  let newStart :=
    if startUnset sd.metadata.sessionStart then some ts
    else sd.metadata.sessionStart
  { data := limited
    metadata :=
      { sd.metadata with
          sessionStart := newStart
          totalReadings := limited.length
          lastUpdate := some ts } }

/-- One ingestion step's inputs: the clock values and the validated payload. -/
structure RecInput where
  ts : Int
  date : String
  payload : Payload
deriving DecidableEq

/-- Record one input into the session (the fold step for input sequences). -/
def recordStep (sd : SessionData) (i : RecInput) : SessionData :=
  saveReading sd i.ts i.date i.payload

/-- The reading that `saveReading` builds from one input. -/
def mkReading (i : RecInput) : Reading :=
  { timestamp := i.ts, date := i.date, heartRate := i.payload.heartRate
    spO2 := i.payload.spO2, squatCount := i.payload.squatCount
    postureStatus := i.payload.postureStatus
    fingerDetected := i.payload.fingerDetected
    fallDetected := i.payload.fallDetected }

/-! ## Session statistics (`StorageManager.getStats`, storage.js lines 508-536) -/

/-- The object returned by `getStats`.  `Option` models both `null` results
and the two keys that the empty-buffer branch omits entirely
(`minHeartRate`/`maxHeartRate`). -/
structure SessionStats where
  totalReadings : Nat
  sessionStart : Option Int
  avgHeartRate : Option Int
  avgSpO2 : Option Int
  maxSquats : JNum
  minHeartRate : Option Int
  maxHeartRate : Option Int
deriving DecidableEq

/-- `StorageManager.getStats`: aggregates over the current buffer only.
`heartRates`/`spO2Values` model `.map(...).filter(v => !isNaN(v))` — the
non-NaN entries carried as their values; `squatCounts` is unfiltered, so
`Math.max(...squatCounts)` (modelled by the NaN-propagating `JNum.jmax`
fold) is NaN as soon as one squat count is NaN.  The averages model
`Math.round(xs.reduce((a,b) => a+b, 0) / xs.length)` with exact
arithmetic. -/
def getStats (sd : SessionData) : SessionStats :=
  if sd.data.length = 0 then
    { totalReadings := 0, sessionStart := none, avgHeartRate := none
      avgSpO2 := none, maxSquats := .val 0, minHeartRate := none
      maxHeartRate := none }
  else
    let heartRates := (sd.data.map Reading.heartRate).filterMap JNum.toInt?
    let spO2Values := (sd.data.map Reading.spO2).filterMap JNum.toInt?
    let squatCounts := sd.data.map Reading.squatCount
    { totalReadings := sd.data.length
      sessionStart := sd.metadata.sessionStart
      avgHeartRate :=
        match heartRates with
        | [] => none
        | _ :: _ =>
          some (jsRound ((heartRates.foldl (· + ·) 0 : Int) / (heartRates.length : Rat)))
      avgSpO2 :=
        match spO2Values with
        | [] => none
        | _ :: _ =>
          some (jsRound ((spO2Values.foldl (· + ·) 0 : Int) / (spO2Values.length : Rat)))
      maxSquats :=
        match squatCounts with
        | [] => .val 0
        | x :: xs => xs.foldl JNum.jmax x
      minHeartRate :=
        match heartRates with
        | [] => none
        | x :: xs => some (xs.foldl min x)
      maxHeartRate :=
        match heartRates with
        | [] => none
        | x :: xs => some (xs.foldl max x) }

/-- The non-NaN heart rates of the buffer, carried as values (spec-side
vocabulary for the `.filter(v => !isNaN(v))` list inside `getStats`). -/
def numericHeartRates (sd : SessionData) : List Int :=
  (sd.data.map Reading.heartRate).filterMap JNum.toInt?

/-- The non-NaN SpO2 values of the buffer. -/
def numericSpO2s (sd : SessionData) : List Int :=
  (sd.data.map Reading.spO2).filterMap JNum.toInt?

/-- The non-NaN squat counts of the buffer. -/
def numericSquats (sd : SessionData) : List Int :=
  (sd.data.map Reading.squatCount).filterMap JNum.toInt?

/-! ## Connection manager state machine (`js/websocket.js`) -/

/-- The reconnect-relevant fields of `WebSocketManager`.
`maxReconnectAttempts = none` models `Infinity`; `reconnectTimeout`
records the delay of the pending timer, `none` when no timer is pending. -/
structure WSState where
  reconnectAttempts : Nat
  maxReconnectAttempts : Option Nat
  reconnectDelay : Nat
  maxReconnectDelay : Nat
  reconnectTimeout : Option Nat
  isManualDisconnect : Bool
  connState : String
deriving DecidableEq

/-- A freshly constructed manager (websocket.js lines 7-18). -/
def freshWS : WSState :=
  { reconnectAttempts := 0, maxReconnectAttempts := none
    reconnectDelay := 1000, maxReconnectDelay := 30000
    reconnectTimeout := none, isManualDisconnect := false
    connState := "disconnected" }

/-- `WebSocketManager.scheduleReconnect` (websocket.js lines 175-192):
return unchanged on manual disconnect, otherwise increment the attempt
counter, compute `min(reconnectDelay * 2^(attempts-1), maxReconnectDelay)`
and arm the timer with that delay. -/
def scheduleReconnect (s : WSState) : WSState :=
  if s.isManualDisconnect then s
  else
    let attempts := s.reconnectAttempts + 1
    let delay := min (s.reconnectDelay * 2 ^ (attempts - 1)) s.maxReconnectDelay
    { s with reconnectAttempts := attempts, connState := "connecting"
             reconnectTimeout := some delay }

/-- `WebSocketManager.disconnect` (websocket.js lines 156-170): mark the
disconnect as manual, cancel any pending reconnect timer, close the
transport and report `disconnected`. -/
def disconnect (s : WSState) : WSState :=
  { s with isManualDisconnect := true, reconnectTimeout := none
           connState := "disconnected" }

/-- The `this.reconnectAttempts < this.maxReconnectAttempts` guard; the
constructor sets the bound to `Infinity`, modelled by `none`. -/
def belowMaxAttempts (s : WSState) : Bool :=
  match s.maxReconnectAttempts with
  | none => true
  | some m => s.reconnectAttempts < m

/-- The `onclose` handler (websocket.js lines 113-138): report
`disconnected`, then auto-reconnect unless the disconnect was manual. -/
def handleClose (s : WSState) : WSState :=
  let s1 := { s with connState := "disconnected" }
  if !s1.isManualDisconnect && belowMaxAttempts s1 then scheduleReconnect s1
  else s1

/-- The `onerror` handler (websocket.js lines 96-111): reports `error`;
it never schedules a reconnect itself. -/
def handleError (s : WSState) : WSState :=
  { s with connState := "error" }

/-- The transport events that can occur without a new manual `connect()`:
a close, an error, or a (stray) direct `scheduleReconnect` call. -/
inductive WSEvent where
  | close
  | error
  | schedule
deriving DecidableEq

/-- Dispatch one event to its handler. -/
def wsStep (s : WSState) (e : WSEvent) : WSState :=
  match e with
  | .close => handleClose s
  | .error => handleError s
  | .schedule => scheduleReconnect s

/-! ## Metrics classifier (`js/dashboard.js` updateHeartRate, `js/charts.js`
getHeartRateColor) -/

/-- The heart-rate status label assigned by `DashboardController.updateHeartRate`
(dashboard.js lines 774-787) to a numeric (non-NaN) value. -/
def hrStatus (v : Rat) : String :=
  if 60 ≤ v ∧ v ≤ 100 then "Normal"
  else if 101 ≤ v ∧ v ≤ 120 then "Elevated"
  else "High"

/-- `ChartManager.getHeartRateColor` (charts.js lines 244-261): border and
background colors for a heart-rate value. -/
def getHeartRateColor (v : Rat) : String × String :=
  if 60 ≤ v ∧ v ≤ 100 then ("#10b981", "rgba(16, 185, 129, 0.1)")
  else if 101 ≤ v ∧ v ≤ 120 then ("#f59e0b", "rgba(245, 158, 11, 0.1)")
  else ("#ef4444", "rgba(239, 68, 68, 0.1)")

/-! ## JSON serialization (`JSON.stringify`) -/

/-- The decimal digit character for `d < 10`. -/
def digitChar : Nat → Char
  | 0 => '0'
  | 1 => '1'
  | 2 => '2'
  | 3 => '3'
  | 4 => '4'
  | 5 => '5'
  | 6 => '6'
  | 7 => '7'
  | 8 => '8'
  | _ => '9'

/-- The lowercase hex digit character for `d < 16`, as `JSON.stringify`
emits in `\u00XX` escapes. -/
def hexChar : Nat → Char
  | 0 => '0'
  | 1 => '1'
  | 2 => '2'
  | 3 => '3'
  | 4 => '4'
  | 5 => '5'
  | 6 => '6'
  | 7 => '7'
  | 8 => '8'
  | 9 => '9'
  | 10 => 'a'
  | 11 => 'b'
  | 12 => 'c'
  | 13 => 'd'
  | 14 => 'e'
  | _ => 'f'

/-- Decimal digits of a natural number, most significant first. -/
def natDigits (n : Nat) : List Char :=
  if h : n < 10 then [digitChar n]
  else natDigits (n / 10) ++ [digitChar (n % 10)]
decreasing_by exact Nat.div_lt_self (by omega) (by omega)

/-- Decimal rendering of an integer, as `JSON.stringify` prints an
integral number. -/
def renderInt (n : Int) : List Char :=
  if n < 0 then '-' :: natDigits n.natAbs else natDigits n.toNat

/-- How `JSON.stringify` escapes one character inside a string literal:
quote and backslash get a backslash escape, the five named control
characters get their short escapes, other control characters become
`\u00XX` (lowercase hex), and everything else is emitted literally. -/
def escapeChar (c : Char) : List Char :=
  if c = '"' then ['\\', '"']
  else if c = '\\' then ['\\', '\\']
  else if c = '\x08' then ['\\', 'b']
  else if c = '\x09' then ['\\', 't']
  else if c = '\x0a' then ['\\', 'n']
  else if c = '\x0c' then ['\\', 'f']
  else if c = '\x0d' then ['\\', 'r']
  else if c.toNat < 32 then
    ['\\', 'u', '0', '0', hexChar (c.toNat / 16), hexChar (c.toNat % 16)]
  else [c]

/-- Escape every character of a string body. -/
def escapeList : List Char → List Char
  | [] => []
  | c :: cs => escapeChar c ++ escapeList cs

/-- A rendered JSON string literal: quote, escaped body, quote. -/
def renderStr (s : String) : List Char :=
  '"' :: escapeList s.data ++ ['"']

/-- The newline-plus-indentation that `JSON.stringify(x, null, 2)` inserts
before an entry nested at depth `d`. -/
def nlIndent (d : Nat) : List Char :=
  '\n' :: List.replicate (2 * d) ' '

/-- The three keyword literals the serializer emits. -/
def litNull : List Char := ['n', 'u', 'l', 'l']

/-- `true` as characters. -/
def litTrue : List Char := ['t', 'r', 'u', 'e']

/-- `false` as characters. -/
def litFalse : List Char := ['f', 'a', 'l', 's', 'e']

mutual
/-- `JSON.stringify(x, null, 2)` on a JSON value nested at depth `d`:
pretty-printed with two-space indentation, empty containers printed
without newlines, `": "` between key and value. -/
def renderP : Json → Nat → List Char
  | .null, _ => litNull
  | .bool true, _ => litTrue
  | .bool false, _ => litFalse
  | .num n, _ => renderInt n
  | .str s, _ => renderStr s
  | .arr [], _ => ['[', ']']
  | .arr (x :: xs), d =>
    '[' :: (nlIndent (d + 1) ++ renderP x (d + 1) ++ renderItems xs (d + 1)) ++
      nlIndent d ++ [']']
  | .obj [], _ => ['\x7b', '\x7d']
  | .obj (f :: fs), d =>
    '\x7b' :: (nlIndent (d + 1) ++ renderField f (d + 1) ++ renderFields fs (d + 1)) ++
      nlIndent d ++ ['\x7d']

/-- The remaining array elements, each preceded by a comma and fresh
indentation. -/
def renderItems : List Json → Nat → List Char
  | [], _ => []
  | x :: xs, d => ',' :: nlIndent d ++ renderP x d ++ renderItems xs d

/-- One `"key": value` member. -/
def renderField : String × Json → Nat → List Char
  | (k, v), d => renderStr k ++ ':' :: ' ' :: renderP v d

/-- The remaining object members, each preceded by a comma and fresh
indentation. -/
def renderFields : List (String × Json) → Nat → List Char
  | [], _ => []
  | f :: fs, d => ',' :: nlIndent d ++ renderField f d ++ renderFields fs d
end

/-- `JSON.stringify(x, null, 2)` as a string (top level is depth 0). -/
def stringify2 (j : Json) : String :=
  String.mk (renderP j 0)

mutual
/-- `JSON.stringify(x)` (no spacing), used by `StorageManager.persist`. -/
def renderC : Json → List Char
  | .null => litNull
  | .bool true => litTrue
  | .bool false => litFalse
  | .num n => renderInt n
  | .str s => renderStr s
  | .arr [] => ['[', ']']
  | .arr (x :: xs) => '[' :: renderC x ++ renderItemsC xs ++ [']']
  | .obj [] => ['\x7b', '\x7d']
  | .obj (f :: fs) => '\x7b' :: renderFieldC f ++ renderFieldsC fs ++ ['\x7d']

/-- Remaining compact array elements. -/
def renderItemsC : List Json → List Char
  | [] => []
  | x :: xs => ',' :: renderC x ++ renderItemsC xs

/-- One compact `"key":value` member. -/
def renderFieldC : String × Json → List Char
  | (k, v) => renderStr k ++ ':' :: renderC v

/-- Remaining compact object members. -/
def renderFieldsC : List (String × Json) → List Char
  | [] => []
  | f :: fs => ',' :: renderFieldC f ++ renderFieldsC fs
end

/-- `JSON.stringify(x)` as a string. -/
def stringifyC (j : Json) : String :=
  String.mk (renderC j)

/-! ## JSON parsing (`JSON.parse`), an executable recursive-descent model.
Numbers are restricted to the integer grammar (the same idealization the
whole model uses); the parser accepts exactly JSON's whitespace between
tokens. -/

/-- JSON insignificant whitespace. -/
def isWs (c : Char) : Bool :=
  c == ' ' || c == '\n' || c == '\t' || c == '\r'

/-- Drop leading whitespace. -/
def skipWs : List Char → List Char
  | [] => []
  | c :: cs => if isWs c then skipWs cs else c :: cs

/-- The numeric value of one hex digit character. -/
def hexVal? (c : Char) : Option Nat :=
  if '0' ≤ c ∧ c ≤ '9' then some (c.toNat - 48)
  else if 'a' ≤ c ∧ c ≤ 'f' then some (c.toNat - 87)
  else if 'A' ≤ c ∧ c ≤ 'F' then some (c.toNat - 55)
  else none

/-- The translation of a single-character escape sequence accepted by
`JSON.parse` (everything except `\u`). -/
def escCode (e : Char) : Option Char :=
  if e = '"' then some '"'
  else if e = '\\' then some '\\'
  else if e = '/' then some '/'
  else if e = 'b' then some '\x08'
  else if e = 't' then some '\x09'
  else if e = 'n' then some '\x0a'
  else if e = 'f' then some '\x0c'
  else if e = 'r' then some '\x0d'
  else none

/-- The body of a string literal after the opening quote: unescape up to
the closing quote, returning the content and the remaining input. -/
def parseStrBody : List Char → Option (List Char × List Char)
  | [] => none
  | c :: rest =>
    if c = '"' then some ([], rest)
    else if c = '\\' then
      match rest with
      | [] => none
      | e :: rs =>
        if e = 'u' then
          match rs with
          | h1 :: h2 :: h3 :: h4 :: rs2 =>
            match hexVal? h1, hexVal? h2, hexVal? h3, hexVal? h4 with
            | some a, some b, some c2, some d =>
              (parseStrBody rs2).map
                (fun p => (Char.ofNat (((a * 16 + b) * 16 + c2) * 16 + d) :: p.1, p.2))
            | _, _, _, _ => none
          | _ => none
        else
          match escCode e with
          | some u => (parseStrBody rs).map (fun p => (u :: p.1, p.2))
          | none => none
    else (parseStrBody rest).map (fun p => (c :: p.1, p.2))

/-- The numeric value of a (nonempty) digit sequence, most significant
first. -/
def digitsToNat (ds : List Char) : Nat :=
  ds.foldl (fun a c => 10 * a + (c.toNat - 48)) 0

/-- Parse a maximal nonempty run of decimal digits. -/
def parseDigits (cs : List Char) : Option (Nat × List Char) :=
  let ds := cs.takeWhile Char.isDigit
  if ds.isEmpty then none
  else some (digitsToNat ds, cs.dropWhile Char.isDigit)

mutual
/-- Parse one JSON value (after optional whitespace).  The fuel bounds the
nesting of recursive-descent calls; `parseJson` supplies one more than the
input length, which the round-trip development shows is always enough. -/
def parseVal : Nat → List Char → Option (Json × List Char)
  | 0, _ => none
  | fuel + 1, cs =>
    match skipWs cs with
    | [] => none
    | c :: rest =>
      if c = 'n' then
        match rest with
        | 'u' :: 'l' :: 'l' :: r => some (.null, r)
        | _ => none
      else if c = 't' then
        match rest with
        | 'r' :: 'u' :: 'e' :: r => some (.bool true, r)
        | _ => none
      else if c = 'f' then
        match rest with
        | 'a' :: 'l' :: 's' :: 'e' :: r => some (.bool false, r)
        | _ => none
      else if c = '"' then
        (parseStrBody rest).map (fun p => (.str (String.mk p.1), p.2))
      else if c = '-' then
        (parseDigits rest).map (fun p => (.num (-(p.1 : Int)), p.2))
      else if c = '[' then
        match skipWs rest with
        | ']' :: r2 => some (.arr [], r2)
        | _ =>
          match parseItems fuel rest with
          | some (xs, r) => some (.arr xs, r)
          | none => none
      else if c = '\x7b' then
        match skipWs rest with
        | '\x7d' :: r2 => some (.obj [], r2)
        | _ =>
          match parseFields fuel rest with
          | some (fs, r) => some (.obj fs, r)
          | none => none
      else if c.isDigit then
        (parseDigits (c :: rest)).map (fun p => (.num (p.1 : Int), p.2))
      else none

/-- Parse a nonempty comma-separated element list up to the closing `]`. -/
def parseItems : Nat → List Char → Option (List Json × List Char)
  | 0, _ => none
  | fuel + 1, cs =>
    match parseVal fuel cs with
    | none => none
    | some (v, r) =>
      match skipWs r with
      | ',' :: r2 =>
        match parseItems fuel r2 with
        | some (vs, r3) => some (v :: vs, r3)
        | none => none
      | ']' :: r2 => some ([v], r2)
      | _ => none

/-- Parse a nonempty comma-separated member list up to the closing brace. -/
def parseFields : Nat → List Char → Option (List (String × Json) × List Char)
  | 0, _ => none
  | fuel + 1, cs =>
    match skipWs cs with
    | '"' :: rest =>
      match parseStrBody rest with
      | none => none
      | some (k, r1) =>
        match skipWs r1 with
        | ':' :: r2 =>
          match parseVal fuel r2 with
          | none => none
          | some (v, r3) =>
            match skipWs r3 with
            | ',' :: r4 =>
              match parseFields fuel r4 with
              | some (fs, r5) => some ((String.mk k, v) :: fs, r5)
              | none => none
            | '\x7d' :: r4 => some ([(String.mk k, v)], r4)
            | _ => none
        | _ => none
    | _ => none
end

/-- `JSON.parse`: parse one value and require only whitespace to remain. -/
def parseJson (s : String) : Option Json :=
  match parseVal (s.length + 1) s.data with
  | some (j, rest) => if (skipWs rest).isEmpty then some j else none
  | none => none

/-! ## The persisted/exported session document (`StorageManager.persist`,
`StorageManager.exportJSON`) -/

/-- A nullable timestamp as JSON. -/
def optIntToJson : Option Int → Json
  | none => .null
  | some n => .num n

/-- How `JSON.stringify` serializes a number: NaN has no JSON form and is
emitted as `null`. -/
def jnumToJson : JNum → Json
  | .nan => .null
  | .val n => .num n

/-- The metadata object as serialized: the four keys the constructor wrote,
plus `lastUpdate` appended once `saveReading` has assigned it. -/
def metadataToJson (m : SessionMetadata) : Json :=
  .obj
    ([("sessionStart", optIntToJson m.sessionStart),
      ("sessionEnd", optIntToJson m.sessionEnd),
      ("totalReadings", .num (m.totalReadings : Int)),
      ("exportTimestamp", optIntToJson m.exportTimestamp)] ++
      (match m.lastUpdate with
       | none => []
       | some t => [("lastUpdate", Json.num t)]))

/-- One reading as serialized, keys in the order `saveReading` created them. -/
def readingToJson (r : Reading) : Json :=
  .obj
    [("timestamp", .num r.timestamp),
     ("date", .str r.date),
     ("heartRate", jnumToJson r.heartRate),
     ("spO2", jnumToJson r.spO2),
     ("squatCount", jnumToJson r.squatCount),
     ("postureStatus", .str r.postureStatus),
     ("fingerDetected", .bool r.fingerDetected),
     ("fallDetected", .bool r.fallDetected)]

/-- The persisted `this.sessionData` document
(`{ data: [...], metadata: {...} }`). -/
def sessionToJson (sd : SessionData) : Json :=
  .obj
    [("data", .arr (sd.data.map readingToJson)),
     ("metadata", metadataToJson sd.metadata)]

/-- The export document `{ ...this.sessionData, exportTimestamp, exportDate }`
built by `StorageManager.exportJSON` (storage.js lines 433-437); `ts` models
`Date.now()` and `date` models `new Date().toISOString()`. -/
def exportDoc (sd : SessionData) (ts : Int) (date : String) : Json :=
  .obj
    [("data", .arr (sd.data.map readingToJson)),
     ("metadata", metadataToJson sd.metadata),
     ("exportTimestamp", .num ts),
     ("exportDate", .str date)]

/-- The exact text `exportJSON` serializes and downloads:
`JSON.stringify(exportData, null, 2)`. -/
def exportText (sd : SessionData) (ts : Int) (date : String) : String :=
  stringify2 (exportDoc sd ts date)

/-! ## Persistence with quota fallback (`StorageManager.persist` lines
368-379 and `StorageManager.clearOldData` lines 384-392) -/

/-- The `keepCount` constant of `clearOldData`. -/
def keepCount : Nat := 500

/-- The outcome of a `persist` call: the (possibly truncated) in-memory
session, how many `localStorage.setItem` writes were attempted, whether the
quota warning was surfaced, and the successfully stored text if any. -/
structure PersistResult where
  session : SessionData
  writeAttempts : Nat
  warned : Bool
  stored : Option String
deriving DecidableEq

/-- `StorageManager.persist` with an explicit storage quota: the
`localStorage.setItem` write succeeds exactly when the serialized document
(`JSON.stringify(this.sessionData)`) fits `quota`; a failing write raises
`QuotaExceededError`, which is caught, surfaces the warning `alert`, and
falls back to `clearOldData` (storage.js lines 384-392, whose body —
truncate to the last `keepCount` readings, update `totalReadings`, retry
`persist` — is inlined here at its only call site).  The fuel only bounds
the recursion; it provably stops after one retry because the truncated
buffer never exceeds `keepCount` again. -/
def persistFuel : Nat → Nat → SessionData → PersistResult
  | 0, _, sd => ⟨sd, 0, false, none⟩
  | fuel + 1, quota, sd =>
    let payload := stringifyC (sessionToJson sd)
    if payload.length ≤ quota then ⟨sd, 1, false, some payload⟩
    else
      if sd.data.length > keepCount then
        let kept := sd.data.drop (sd.data.length - keepCount)
        let sd2 : SessionData :=
          { data := kept
            metadata := { sd.metadata with totalReadings := kept.length } }
        let r := persistFuel fuel quota sd2
        ⟨r.session, r.writeAttempts + 1, true, r.stored⟩
      else ⟨sd, 1, true, none⟩

/-- A `persist()` call with quota `quota`.  Fuel 4 is more than the two
levels the recursion can ever reach. -/
def persist (quota : Nat) (sd : SessionData) : PersistResult :=
  persistFuel 4 quota sd

/-! ## Loading the persisted session (`StorageManager.loadSessionData`,
storage.js lines 310-334) -/

/-- JavaScript falsiness of a decoded JSON value (`!parsed.data`): `null`,
`false`, `0` and the empty string are falsy; every object and array is
truthy. -/
def jsFalsy : Json → Bool
  | .null => true
  | .bool b => !b
  | .num n => n == 0
  | .str s => s == ""
  | .arr _ => false
  | .obj _ => false

/-- Falsiness of a property-read result, where an absent property
(`undefined`) is falsy. -/
def falsyRead : Option Json → Bool
  | none => true
  | some v => jsFalsy v

/-- The JavaScript property assignment `o.k = v` on an object: replace the
value in place if the key exists, append the key otherwise. -/
def setField : List (String × Json) → String → Json → List (String × Json)
  | [], k, v => [(k, v)]
  | (k2, v2) :: fs, k, v =>
    if k2 == k then (k, v) :: fs else (k2, v2) :: setField fs k v

/-- The observable shape of what `loadSessionData` returns: the `data` and
`metadata` properties of the returned object (`none` models an absent
property).  These are the only properties the class and the claims read. -/
structure LoadedSession where
  dataField : Option Json
  metadataField : Option Json

/-- The fallback session `loadSessionData` builds when nothing valid is
stored: empty `data` plus the four-field metadata object. -/
def defaultLoaded : LoadedSession :=
  { dataField := some (.arr [])
    metadataField := some (.obj
      [("sessionStart", .null), ("sessionEnd", .null),
       ("totalReadings", .num 0), ("exportTimestamp", .null)]) }

/-- `StorageManager.loadSessionData` on the stored value (`none` models an
absent key).  The method body runs in strict mode (class code), so:
a missing stored value, a `JSON.parse` failure, and a decoded primitive or
`null` (where reading or assigning `.data` throws `TypeError` inside the
same `try`) all fall through to the fallback document; a decoded object is
returned with `data` replaced by `[]` exactly when `!parsed.data` is truthy;
a decoded array accepts the `data` property assignment (arrays are objects)
and has no `metadata`. -/
def loadSessionData (stored : Option String) : LoadedSession :=
  match stored with
  | none => defaultLoaded
  | some s =>
    match parseJson s with
    | none => defaultLoaded
    | some (.obj fs) =>
      let fs2 := if falsyRead (fs.lookup "data") then setField fs "data" (.arr []) else fs
      { dataField := fs2.lookup "data", metadataField := fs2.lookup "metadata" }
    | some (.arr _) => { dataField := some (.arr []), metadataField := none }
    | some _ => defaultLoaded

/-! ## Measures for the parser round-trip development -/

/-- No leading digit: a suffix with this property cannot extend a number
token that ends right before it. -/
def numSafe (cs : List Char) : Prop :=
  ∀ c, cs.head? = some c → c.isDigit = false

mutual
/-- Recursion budget `parseVal` needs on the rendering of `j`. -/
def needV : Json → Nat
  | .null => 1
  | .bool _ => 1
  | .str _ => 1
  | .num _ => 1
  | .arr [] => 1
  | .arr (x :: xs) => needI x xs + 1
  | .obj [] => 1
  | .obj (f :: fs) => needF f fs + 1
termination_by j => sizeOf j

/-- Recursion budget `parseItems` needs on a rendered element list. -/
def needI : Json → List Json → Nat
  | x, [] => needV x + 1
  | x, y :: ys => max (needV x) (needI y ys) + 1
termination_by x xs => sizeOf x + sizeOf xs

/-- Recursion budget `parseFields` needs on a rendered member list. -/
def needF : String × Json → List (String × Json) → Nat
  | (_, v), [] => needV v + 1
  | (_, v), g :: gs => max (needV v) (needF g gs) + 1
termination_by f fs => sizeOf f + sizeOf fs
end

/-- A concrete two-reading session used to evaluate the statistics
theorems on a closed input. -/
def twoReadingSession : SessionData :=
  { data :=
      [{ timestamp := 0, date := "a", heartRate := .val 70, spO2 := .val 97
         squatCount := .val 3, postureStatus := "GOOD"
         fingerDetected := true, fallDetected := false },
       { timestamp := 1, date := "b", heartRate := .val 75, spO2 := .val 98
         squatCount := .val 5, postureStatus := "GOOD"
         fingerDetected := true, fallDetected := false }]
    metadata :=
      { sessionStart := some 0, sessionEnd := none, totalReadings := 2
        exportTimestamp := none, lastUpdate := some 1 } }

/-- A concrete one-reading session used to evaluate the persistence
theorems on a closed input. -/
def oneReadingSession : SessionData :=
  { data :=
      [{ timestamp := 0, date := "t", heartRate := .val 1, spO2 := .val 1
         squatCount := .val 1, postureStatus := "GOOD"
         fingerDetected := true, fallDetected := false }]
    metadata :=
      { sessionStart := some 0, sessionEnd := none, totalReadings := 1
        exportTimestamp := none, lastUpdate := some 0 } }

/-! # Theorems -/

/-! ## Connection manager: backoff and manual disconnect -/

theorem scheduleReconnect_not_manual {s : WSState}
    (h : s.isManualDisconnect = false) :
    scheduleReconnect s =
      { s with reconnectAttempts := s.reconnectAttempts + 1
               connState := "connecting"
               reconnectTimeout :=
                 some (min (s.reconnectDelay * 2 ^ s.reconnectAttempts)
                   s.maxReconnectDelay) } := by
  simp [scheduleReconnect, h]

theorem wsStep_manual_invariant (s : WSState) (e : WSEvent)
    (h : s.isManualDisconnect = true) :
    (wsStep s e).isManualDisconnect = true ∧
    (wsStep s e).reconnectTimeout = s.reconnectTimeout := by
  cases e <;> simp [wsStep, handleClose, handleError, scheduleReconnect, h]

theorem foldl_wsStep_manual (evs : List WSEvent) :
    ∀ s : WSState, s.isManualDisconnect = true →
      (evs.foldl wsStep s).isManualDisconnect = true ∧
      (evs.foldl wsStep s).reconnectTimeout = s.reconnectTimeout := by
  induction evs with
  | nil => intro s h; exact ⟨h, rfl⟩
  | cons e evs ih =>
    intro s h
    obtain ⟨h1, h2⟩ := wsStep_manual_invariant s e h
    obtain ⟨h3, h4⟩ := ih (wsStep s e) h1
    exact ⟨h3, h4.trans h2⟩

/-- Claim C3: from a fresh connection manager (attempt counter 0, base delay
1000 ms, cap 30000 ms), seven consecutive `scheduleReconnect` calls arm the
timer with exactly 1000, 2000, 4000, 8000, 16000, 30000, 30000 ms; in
general (outside the manual-disconnect state) the attempt counter is
incremented first and the delay is
`min(reconnectDelay * 2^(attempts-1), maxReconnectDelay)`. -/
theorem c3_backoff_delay_sequence :
    ((scheduleReconnect^[1] freshWS).reconnectTimeout = some 1000 ∧
     (scheduleReconnect^[2] freshWS).reconnectTimeout = some 2000 ∧
     (scheduleReconnect^[3] freshWS).reconnectTimeout = some 4000 ∧
     (scheduleReconnect^[4] freshWS).reconnectTimeout = some 8000 ∧
     (scheduleReconnect^[5] freshWS).reconnectTimeout = some 16000 ∧
     (scheduleReconnect^[6] freshWS).reconnectTimeout = some 30000 ∧
     (scheduleReconnect^[7] freshWS).reconnectTimeout = some 30000) ∧
    ∀ s : WSState, s.isManualDisconnect = false →
      (scheduleReconnect s).reconnectAttempts = s.reconnectAttempts + 1 ∧
      (scheduleReconnect s).reconnectTimeout =
        some (min (s.reconnectDelay * 2 ^ ((s.reconnectAttempts + 1) - 1))
          s.maxReconnectDelay) := by
  constructor
  · exact ⟨by decide, by decide, by decide, by decide, by decide, by decide,
      by decide⟩
  · intro s h
    rw [scheduleReconnect_not_manual h]
    simp

/-- Witness for C3 at the fresh manager. -/
theorem c3_backoff_delay_sequence_witness :
    freshWS.isManualDisconnect = false ∧
    (scheduleReconnect freshWS).reconnectAttempts = freshWS.reconnectAttempts + 1 := by
  exact ⟨by decide, (c3_backoff_delay_sequence.2 freshWS (by decide)).1⟩

/-- Claim C4: after a manual `disconnect()` the pending reconnect timer is
cancelled, and no sequence of subsequent transport closes, transport errors
or direct `scheduleReconnect` calls (i.e. anything short of a new manual
`connect()`, which alone clears the manual-disconnect mark) ever arms a
reconnect timer again. -/
theorem c4_manual_disconnect_suppresses_reconnect :
    ∀ (s : WSState) (evs : List WSEvent),
      (disconnect s).reconnectTimeout = none ∧
      (evs.foldl wsStep (disconnect s)).reconnectTimeout = none ∧
      (evs.foldl wsStep (disconnect s)).isManualDisconnect = true := by
  intro s evs
  have hm : (disconnect s).isManualDisconnect = true := rfl
  obtain ⟨h1, h2⟩ := foldl_wsStep_manual evs (disconnect s) hm
  exact ⟨rfl, h2.trans rfl, h1⟩

/-! ## Metrics classifier -/

/-- Claim C8: the heart-rate classification is `Normal` exactly on
`[60, 100]`, `Elevated` exactly on `[101, 120]`, and `High` on everything
else (every value below 60 included); 100 is `Normal` and 101 `Elevated`;
the chart colors agree band for band. -/
theorem c8_heart_rate_bands :
    (∀ v : Rat,
      (hrStatus v = "Normal" ↔ 60 ≤ v ∧ v ≤ 100) ∧
      (hrStatus v = "Elevated" ↔ 101 ≤ v ∧ v ≤ 120) ∧
      (hrStatus v = "High" ↔ ¬(60 ≤ v ∧ v ≤ 100) ∧ ¬(101 ≤ v ∧ v ≤ 120)) ∧
      ((getHeartRateColor v).1 = "#10b981" ↔ hrStatus v = "Normal") ∧
      ((getHeartRateColor v).1 = "#f59e0b" ↔ hrStatus v = "Elevated") ∧
      ((getHeartRateColor v).1 = "#ef4444" ↔ hrStatus v = "High")) ∧
    hrStatus 100 = "Normal" ∧ hrStatus 101 = "Elevated" ∧
    hrStatus 59 = "High" ∧ hrStatus (-5) = "High" ∧ hrStatus 121 = "High" := by
  refine ⟨fun v => ?_, by decide, by decide, by decide, by decide, by decide⟩
  unfold hrStatus getHeartRateColor
  split_ifs with h1 h2 <;> simp_all <;>
    (try obtain ⟨ha, hb⟩ := h1) <;> intro h3 <;> linarith

/-! ## Ingestion validator -/

theorem typeofNumber_iff (o : Option Json) :
    typeofNumber o = true ↔ ∃ n, o = some (.num n) := by
  rcases o with _ | v
  · simp [typeofNumber]
  · cases v <;> simp [typeofNumber]

theorem typeofString_iff (o : Option Json) :
    typeofString o = true ↔ ∃ s, o = some (.str s) := by
  rcases o with _ | v
  · simp [typeofString]
  · cases v <;> simp [typeofString]

theorem typeofBoolean_iff (o : Option Json) :
    typeofBoolean o = true ↔ ∃ b, o = some (.bool b) := by
  rcases o with _ | v
  · simp [typeofBoolean]
  · cases v <;> simp [typeofBoolean]

/-- Claim C5: `validateData` accepts a decoded payload exactly when each of
the six fields is present with its declared primitive type — `heartRate`,
`spO2`, `squatCount` numbers, `postureStatus` a string, `fingerDetected`
and `fallDetected` booleans — with no constraint on the values themselves;
everything else (missing field, wrong type, non-object payload) is
rejected as a whole. -/
theorem c5_validator_schema :
    ∀ d : Json,
      validateData d = true ↔
        ((∃ n, getField d "heartRate" = some (.num n)) ∧
         (∃ n, getField d "spO2" = some (.num n)) ∧
         (∃ n, getField d "squatCount" = some (.num n)) ∧
         (∃ s, getField d "postureStatus" = some (.str s)) ∧
         (∃ b, getField d "fingerDetected" = some (.bool b)) ∧
         (∃ b, getField d "fallDetected" = some (.bool b))) := by
  intro d
  cases d <;>
    simp [validateData, getField, typeofIsObject, Json.isNull,
      typeofNumber_iff, typeofString_iff, typeofBoolean_iff] <;>
    tauto

/-! ## Session buffer: capacity bound and FIFO eviction -/

theorem recordStep_data (sd : SessionData) (i : RecInput) :
    (recordStep sd i).data =
      if (sd.data ++ [mkReading i]).length > maxStorageItems
      then (sd.data ++ [mkReading i]).tail
      else sd.data ++ [mkReading i] := rfl

theorem recordStep_length_le (sd : SessionData) (i : RecInput)
    (h : sd.data.length ≤ maxStorageItems) :
    (recordStep sd i).data.length ≤ maxStorageItems := by
  rw [recordStep_data]
  split
  · simp
    omega
  · next hgt =>
    simp at hgt ⊢
    omega

theorem foldl_recordStep_length_le (ins : List RecInput) :
    ∀ sd : SessionData, sd.data.length ≤ maxStorageItems →
      (ins.foldl recordStep sd).data.length ≤ maxStorageItems := by
  induction ins with
  | nil => intro sd h; exact h
  | cons i ins ih =>
    intro sd h
    exact ih (recordStep sd i) (recordStep_length_le sd i h)

theorem getStats_totalReadings (sd : SessionData) :
    (getStats sd).totalReadings = sd.data.length := by
  unfold getStats
  split
  · next h => simp [h]
  · rfl

/-- Claim C1: starting from the empty session, any sequence of validated
readings recorded through `saveReading` leaves at most 1000 readings in
the buffer, and `getStats().totalReadings` is always the live buffer
length (not a lifetime counter). -/
theorem c1_buffer_bound_and_total_readings :
    maxStorageItems = 1000 ∧
    (∀ ins : List RecInput,
      (ins.foldl recordStep emptySession).data.length ≤ 1000) ∧
    (∀ sd : SessionData, (getStats sd).totalReadings = sd.data.length) := by
  refine ⟨rfl, fun ins => ?_, getStats_totalReadings⟩
  exact foldl_recordStep_length_le ins emptySession (by simp [emptySession])

theorem drop_congr_idx {α : Type} (l : List α) {a b : Nat} (h : a = b) :
    l.drop a = l.drop b := by rw [h]

theorem foldl_recordStep_data (ins : List RecInput) :
    ∀ sd : SessionData, sd.data.length ≤ maxStorageItems →
      (ins.foldl recordStep sd).data =
        (sd.data ++ ins.map mkReading).drop
          (sd.data.length + ins.length - maxStorageItems) := by
  induction ins with
  | nil =>
    intro sd h
    simp [Nat.sub_eq_zero_of_le h]
  | cons i ins ih =>
    intro sd h
    have hstep : (List.foldl recordStep sd (i :: ins)) =
        List.foldl recordStep (recordStep sd i) ins := rfl
    rw [hstep]
    by_cases hfull : sd.data.length + 1 > maxStorageItems
    · -- the buffer was exactly at capacity: the oldest entry is evicted
      have hdata : (recordStep sd i).data =
          (sd.data ++ [mkReading i]).drop 1 := by
        rw [recordStep_data,
          if_pos (by simp only [List.length_append, List.length_singleton]; omega)]
        exact (List.drop_one _).symm
      have hlen2 : (recordStep sd i).data.length ≤ maxStorageItems := by
        rw [hdata, List.length_drop]
        simp only [List.length_append, List.length_singleton]
        omega
      rw [ih _ hlen2, hdata, List.length_drop]
      have hassoc : ((sd.data ++ [mkReading i]) ++ ins.map mkReading).drop 1 =
          (sd.data ++ [mkReading i]).drop 1 ++ ins.map mkReading :=
        List.drop_append_of_le_length (by simp)
      rw [← hassoc, List.drop_drop]
      simp only [List.append_assoc, List.singleton_append, List.length_append,
        List.length_singleton, List.length_map, List.length_cons,
        List.length_nil]
      exact drop_congr_idx _ (by omega)
    · -- still below capacity: plain append
      have hdata : (recordStep sd i).data = sd.data ++ [mkReading i] := by
        rw [recordStep_data,
          if_neg (by simp only [List.length_append, List.length_singleton]; omega)]
      have hlen2 : (recordStep sd i).data.length ≤ maxStorageItems := by
        rw [hdata]
        simp only [List.length_append, List.length_singleton]
        omega
      rw [ih _ hlen2, hdata]
      simp only [List.append_assoc, List.singleton_append, List.length_append,
        List.length_singleton, List.length_map, List.length_cons,
        List.length_nil]
      exact drop_congr_idx _ (by omega)

/-- Claim C2: recording 1001 validated readings into an empty session
leaves exactly 1000 readings, and the buffer's first element is the second
reading originally inserted — strict FIFO eviction dropped only the
first. -/
theorem c2_fifo_eviction :
    ∀ ins : List RecInput, ins.length = 1001 →
      (ins.foldl recordStep emptySession).data.length = 1000 ∧
      (ins.foldl recordStep emptySession).data.head? =
        (ins.map mkReading)[1]? := by
  intro ins hlen
  have h := foldl_recordStep_data ins emptySession (by simp [emptySession])
  rw [show emptySession.data = ([] : List Reading) from rfl] at h
  simp only [List.nil_append, List.length_nil, Nat.zero_add, hlen,
    maxStorageItems] at h
  norm_num at h
  rw [h]
  constructor
  · rw [List.length_tail, List.length_map, hlen]
  · rw [← List.drop_one, List.head?_drop]

/-- Witness for C2: a concrete run of 1001 readings. -/
theorem c2_fifo_eviction_witness :
    (List.replicate 1001
      ({ ts := 0, date := "d"
         payload :=
           { heartRate := .val 72, spO2 := .val 97, squatCount := .val 1
             postureStatus := "GOOD", fingerDetected := true
             fallDetected := false } } : RecInput)).length = 1001 ∧
    ((List.replicate 1001
      ({ ts := 0, date := "d"
         payload :=
           { heartRate := .val 72, spO2 := .val 97, squatCount := .val 1
             postureStatus := "GOOD", fingerDetected := true
             fallDetected := false } } : RecInput)).foldl recordStep
        emptySession).data.length = 1000 := by
  refine ⟨by rw [List.length_replicate], (c2_fifo_eviction _ (by rw [List.length_replicate])).1⟩

/-! ## Session statistics -/

theorem foldl_add_eq_add_sum (l : List Int) :
    ∀ a : Int, l.foldl (· + ·) a = a + l.sum := by
  induction l with
  | nil => intro a; simp
  | cons x xs ih =>
    intro a
    simp only [List.foldl_cons, List.sum_cons, ih (a + x)]
    ring

theorem JNum.jmax_nan_left (y : JNum) : JNum.jmax .nan y = .nan := by
  cases y <;> rfl

theorem JNum.jmax_nan_right (x : JNum) : JNum.jmax x .nan = .nan := by
  cases x <;> rfl

theorem foldl_jmax_val (xs : List JNum) :
    ∀ a : Int, (∀ x ∈ xs, x.isNaN = false) →
      xs.foldl JNum.jmax (.val a) =
        .val ((xs.filterMap JNum.toInt?).foldl max a) := by
  induction xs with
  | nil => intro a _; rfl
  | cons x xs ih =>
    intro a h
    cases x with
    | nan => exact absurd (h .nan (by simp)) (by simp [JNum.isNaN])
    | val b =>
      have hx : ∀ y ∈ xs, y.isNaN = false := fun y hy => h y (by simp [hy])
      simp only [List.foldl_cons, List.filterMap_cons, JNum.toInt?,
        JNum.jmax, ih (max a b) hx]

theorem foldl_jmax_nan (xs : List JNum) :
    ∀ a : JNum, (a.isNaN = true ∨ ∃ x ∈ xs, x.isNaN = true) →
      xs.foldl JNum.jmax a = .nan := by
  induction xs with
  | nil =>
    intro a h
    rcases h with h | ⟨x, hx, _⟩
    · cases a with
      | nan => rfl
      | val b => simp [JNum.isNaN] at h
    · simp at hx
  | cons x xs ih =>
    intro a h
    simp only [List.foldl_cons]
    rcases h with h | ⟨y, hy, hyn⟩
    · cases a with
      | nan => exact ih _ (Or.inl (by rw [JNum.jmax_nan_left]; rfl))
      | val b => simp [JNum.isNaN] at h
    · rcases List.mem_cons.mp hy with rfl | hmem
      · cases y with
        | nan => exact ih _ (Or.inl (by rw [JNum.jmax_nan_right]; rfl))
        | val b => simp [JNum.isNaN] at hyn
      · exact ih _ (Or.inr ⟨y, hmem, hyn⟩)

/-- Claim C6 (amended): over the current buffer only, `getStats` returns
the rounded average heart rate and SpO2 of the non-NaN entries, the min and
max non-NaN heart rate, and the max squat count (NaN as soon as one squat
count is NaN); on an empty buffer it returns null averages and omits the
min/max keys, but `maxSquats` is the number `0` (not null/undefined), and
`totalReadings` is `0`.  The model is a total function, so no input
throws. -/
theorem c6_stats_aggregates :
    (∀ sd : SessionData, sd.data = [] →
      getStats sd =
        { totalReadings := 0, sessionStart := none, avgHeartRate := none
          avgSpO2 := none, maxSquats := .val 0, minHeartRate := none
          maxHeartRate := none }) ∧
    (∀ sd : SessionData, sd.data ≠ [] →
      (getStats sd).totalReadings = sd.data.length ∧
      (getStats sd).sessionStart = sd.metadata.sessionStart ∧
      (getStats sd).avgHeartRate =
        (if numericHeartRates sd = [] then none
         else some (jsRound (((numericHeartRates sd).sum : Rat) /
           ((numericHeartRates sd).length : Rat)))) ∧
      (getStats sd).avgSpO2 =
        (if numericSpO2s sd = [] then none
         else some (jsRound (((numericSpO2s sd).sum : Rat) /
           ((numericSpO2s sd).length : Rat)))) ∧
      (getStats sd).minHeartRate = (numericHeartRates sd).min? ∧
      (getStats sd).maxHeartRate = (numericHeartRates sd).max? ∧
      ((∀ r ∈ sd.data, r.squatCount.isNaN = false) →
        (getStats sd).maxSquats = .val ((numericSquats sd).max?.getD 0)) ∧
      ((∃ r ∈ sd.data, r.squatCount.isNaN = true) →
        (getStats sd).maxSquats = .nan)) := by
  constructor
  · intro sd h
    simp [getStats, h]
  · intro sd hne
    have hlen0 : ¬(sd.data.length = 0) := by
      simpa [List.length_eq_zero] using hne
    unfold getStats
    rw [if_neg hlen0]
    refine ⟨rfl, rfl, ?_, ?_, ?_, ?_, ?_, ?_⟩
    · -- average heart rate
      rcases hhr : (sd.data.map Reading.heartRate).filterMap JNum.toInt? with
        _ | ⟨x, xs⟩
      · simp [numericHeartRates, hhr]
      · simp [numericHeartRates, hhr, foldl_add_eq_add_sum]
    · -- average SpO2
      rcases hsp : (sd.data.map Reading.spO2).filterMap JNum.toInt? with
        _ | ⟨x, xs⟩
      · simp [numericSpO2s, hsp]
      · simp [numericSpO2s, hsp, foldl_add_eq_add_sum]
    · -- min heart rate
      rcases hhr : (sd.data.map Reading.heartRate).filterMap JNum.toInt? with
        _ | ⟨x, xs⟩ <;> simp only [numericHeartRates, hhr]
      · rfl
      · rw [List.min?_cons']
    · -- max heart rate
      rcases hhr : (sd.data.map Reading.heartRate).filterMap JNum.toInt? with
        _ | ⟨x, xs⟩ <;> simp only [numericHeartRates, hhr]
      · rfl
      · rw [List.max?_cons']
    · -- max squats, all numeric
      intro hall
      rcases hd : sd.data with _ | ⟨r0, rs⟩
      · exact absurd hd hne
      · rcases hq : r0.squatCount with _ | b
        · exact absurd (hall r0 (by simp [hd])) (by simp [hq, JNum.isNaN])
        · have hrest : ∀ x ∈ rs.map Reading.squatCount, x.isNaN = false := by
            intro x hx
            rcases List.mem_map.mp hx with ⟨r, hr, rfl⟩
            exact hall r (by simp [hd, hr])
          simp only [hd, List.map_cons, hq]
          rw [foldl_jmax_val _ b hrest]
          simp only [numericSquats, hd, List.map_cons, hq,
            List.filterMap_cons, JNum.toInt?]
          rw [List.max?_cons']
          rfl
    · -- max squats, some NaN
      intro ⟨r, hr, hrn⟩
      rcases hd : sd.data with _ | ⟨r0, rs⟩
      · exact absurd hd hne
      · simp only [hd, List.map_cons]
        rcases List.mem_cons.mp (hd ▸ hr) with rfl | hmem
        · exact foldl_jmax_nan _ _ (Or.inl hrn)
        · exact foldl_jmax_nan _ _
            (Or.inr ⟨r.squatCount, List.mem_map_of_mem Reading.squatCount hmem, hrn⟩)

/-- Counterexample for C6 as stated: on the empty buffer, `maxSquats` is
the number 0, not a null/undefined aggregate. -/
theorem c6_empty_maxSquats_is_zero :
    getStats emptySession =
      { totalReadings := 0, sessionStart := none, avgHeartRate := none
        avgSpO2 := none, maxSquats := JNum.val 0, minHeartRate := none
        maxHeartRate := none } ∧
    (getStats emptySession).maxSquats = JNum.val 0 := by
  exact ⟨rfl, rfl⟩

/-- Witness for C6 at a concrete two-reading session: average heart rate
evaluates to `round((70 + 75) / 2) = 73`. -/
theorem c6_stats_aggregates_witness :
    twoReadingSession.data ≠ [] ∧
    (getStats twoReadingSession).avgHeartRate = some 73 := by
  refine ⟨by simp [twoReadingSession], ?_⟩
  have h := (c6_stats_aggregates.2 twoReadingSession
    (by simp [twoReadingSession])).2.2.1
  rw [h]
  have e1 : numericHeartRates twoReadingSession = [70, 75] := rfl
  rw [e1]
  norm_num [jsRound, Rat.floor, List.sum_cons, List.sum_nil]
  intro hc
  exact absurd hc (by simp)

/-! ## Persistence quota fallback -/

theorem persistFuel_succ (fuel quota : Nat) (sd : SessionData) :
    persistFuel (fuel + 1) quota sd =
      (if (stringifyC (sessionToJson sd)).length ≤ quota
       then ⟨sd, 1, false, some (stringifyC (sessionToJson sd))⟩
       else
         if sd.data.length > keepCount then
           let kept := sd.data.drop (sd.data.length - keepCount)
           let r := persistFuel fuel quota
             { data := kept
               metadata := { sd.metadata with totalReadings := kept.length } }
           ⟨r.session, r.writeAttempts + 1, true, r.stored⟩
         else ⟨sd, 1, true, none⟩) := by
  simp only [persistFuel]

theorem persistFuel_succ_small (fuel quota : Nat) (t : SessionData)
    (hsmall : t.data.length ≤ keepCount) :
    (persistFuel (fuel + 1) quota t).session = t ∧
    (persistFuel (fuel + 1) quota t).writeAttempts = 1 := by
  rw [persistFuel_succ]
  by_cases hq : (stringifyC (sessionToJson t)).length ≤ quota
  · rw [if_pos hq]
    exact ⟨rfl, rfl⟩
  · rw [if_neg hq, if_neg (by omega : ¬(t.data.length > keepCount))]
    exact ⟨rfl, rfl⟩

theorem persist_fail_big (quota : Nat) (sd : SessionData)
    (hfail : ¬((stringifyC (sessionToJson sd)).length ≤ quota))
    (hbig : sd.data.length > keepCount) :
    persist quota sd =
      ⟨(persistFuel (2 + 1) quota
          { data := sd.data.drop (sd.data.length - keepCount)
            metadata := { sd.metadata with
              totalReadings := (sd.data.drop (sd.data.length - keepCount)).length } }).session,
       (persistFuel (2 + 1) quota
          { data := sd.data.drop (sd.data.length - keepCount)
            metadata := { sd.metadata with
              totalReadings := (sd.data.drop (sd.data.length - keepCount)).length } }).writeAttempts + 1,
       true,
       (persistFuel (2 + 1) quota
          { data := sd.data.drop (sd.data.length - keepCount)
            metadata := { sd.metadata with
              totalReadings := (sd.data.drop (sd.data.length - keepCount)).length } }).stored⟩ := by
  have h4 : persist quota sd = persistFuel (3 + 1) quota sd := rfl
  rw [h4, persistFuel_succ, if_neg hfail, if_pos hbig]

set_option maxRecDepth 4000 in
/-- Claim C9 (amended): a quota failure of the `localStorage` write in
`persist` is caught (the model is total) and surfaces the warning; when the
buffer holds more than 500 readings it is truncated to its most recent 500,
`totalReadings` is updated to match, and the write is retried exactly once
(two write attempts in total, whether or not the retry succeeds); when the
buffer holds at most 500 readings, `clearOldData` does nothing — no
truncation and no retry (a single write attempt).  A fitting write stores
the serialized document in one attempt with no warning. -/
theorem c9_quota_fallback :
    (∀ (quota : Nat) (sd : SessionData),
      (stringifyC (sessionToJson sd)).length ≤ quota →
      persist quota sd = ⟨sd, 1, false, some (stringifyC (sessionToJson sd))⟩) ∧
    (∀ (quota : Nat) (sd : SessionData),
      quota < (stringifyC (sessionToJson sd)).length →
      (persist quota sd).warned = true ∧
      (keepCount < sd.data.length →
        (persist quota sd).session.data =
          sd.data.drop (sd.data.length - keepCount) ∧
        (persist quota sd).session.data.length = keepCount ∧
        (persist quota sd).session.metadata.totalReadings = keepCount ∧
        (persist quota sd).writeAttempts = 2) ∧
      (sd.data.length ≤ keepCount →
        (persist quota sd).session = sd ∧
        (persist quota sd).writeAttempts = 1)) := by
  constructor
  · intro quota sd h
    have h4 : persist quota sd = persistFuel (3 + 1) quota sd := rfl
    rw [h4, persistFuel_succ, if_pos h]
  · intro quota sd h
    have hfail : ¬((stringifyC (sessionToJson sd)).length ≤ quota) := by omega
    by_cases hbig : keepCount < sd.data.length
    · have hkeep : (sd.data.drop (sd.data.length - keepCount)).length = keepCount := by
        rw [List.length_drop]; omega
      have hres := persist_fail_big quota sd hfail (by omega)
      obtain ⟨hs, ha⟩ := persistFuel_succ_small 2 quota
        { data := sd.data.drop (sd.data.length - keepCount)
          metadata := { sd.metadata with
            totalReadings := (sd.data.drop (sd.data.length - keepCount)).length } }
        (le_of_eq hkeep)
      rw [hres]
      refine ⟨rfl, fun _ => ⟨?_, ?_, ?_, ?_⟩,
        fun hsm => absurd hbig (by omega)⟩
      · rw [hs]
      · rw [hs]; exact hkeep
      · rw [hs]; exact hkeep
      · rw [ha]
    · have hres : persist quota sd = ⟨sd, 1, true, none⟩ := by
        have h4 : persist quota sd = persistFuel (3 + 1) quota sd := rfl
        rw [h4, persistFuel_succ, if_neg hfail,
          if_neg (by omega : ¬(sd.data.length > keepCount))]
      rw [hres]
      exact ⟨rfl, fun hb => absurd hb hbig, fun _ => ⟨rfl, rfl⟩⟩

/-- Counterexample for C9 as stated: with one stored reading and a full
store, the quota error is caught and the warning shown, but no retry
happens at all — the write is attempted exactly once, not re-attempted
after truncation. -/
theorem c9_no_retry_at_or_below_500 :
    (persist 0 oneReadingSession).warned = true ∧
    (persist 0 oneReadingSession).writeAttempts = 1 := by
  exact ⟨rfl, rfl⟩

/-- Witness for C9: the failure branch applied at quota 0 with one
reading. -/
theorem c9_quota_fallback_witness :
    0 < (stringifyC (sessionToJson oneReadingSession)).length ∧
    (persist 0 oneReadingSession).warned = true := by
  exact ⟨by decide, (c9_quota_fallback.2 0 oneReadingSession (by decide)).1⟩

/-! ## Loading the persisted session -/

theorem lookup_setField_self (fs : List (String × Json)) (k : String) (v : Json) :
    (setField fs k v).lookup k = some v := by
  induction fs with
  | nil => simp [setField, List.lookup]
  | cons f fs ih =>
    obtain ⟨k2, v2⟩ := f
    by_cases h : k2 = k
    · subst h
      simp [setField, List.lookup]
    · have hb : (k2 == k) = false := by simpa using h
      have hb2 : (k == k2) = false := by simpa using fun e => h e.symm
      simp [setField, List.lookup, hb, hb2, ih]

theorem lookup_setField_other (fs : List (String × Json)) (k k2 : String)
    (v : Json) (h : k2 ≠ k) :
    (setField fs k v).lookup k2 = fs.lookup k2 := by
  induction fs with
  | nil =>
    have hb : (k2 == k) = false := by simpa using h
    simp [setField, List.lookup, hb]
  | cons f fs ih =>
    obtain ⟨k3, v3⟩ := f
    by_cases h3 : k3 = k
    · subst h3
      have hb : (k2 == k3) = false := by simpa using h
      simp [setField, List.lookup, hb]
    · have hb : (k3 == k) = false := by simpa using h3
      simp [setField, List.lookup, hb]
      cases hk23 : k2 == k3 <;> simp [ih]

/-- Claim C10 (amended): `loadSessionData` never throws — an absent stored
value, an undecodable one, and a decoded `null` or primitive (whose strict
mode `data` fix-up throws a caught `TypeError`) all yield the well-formed
default session, whose `data` is `[]` and whose metadata carries
`sessionStart`, `sessionEnd`, `totalReadings` and `exportTimestamp`.  But a
decoded object is returned as stored, with `data` replaced by `[]` only
when it was falsy: its `data` field is an array only if the stored `data`
was falsy, absent, or itself an array — a truthy non-array `data` is kept
as is — and its `metadata` is whatever was stored (possibly absent).  A
decoded array accepts the fix-up and comes back with `data = []` and no
`metadata`. -/
theorem c10_load_session_data :
    loadSessionData none = defaultLoaded ∧
    (∃ ms, defaultLoaded.metadataField = some (.obj ms) ∧
      (ms.lookup "sessionStart").isSome ∧ (ms.lookup "sessionEnd").isSome ∧
      (ms.lookup "totalReadings").isSome ∧
      (ms.lookup "exportTimestamp").isSome) ∧
    defaultLoaded.dataField = some (.arr []) ∧
    (∀ s, parseJson s = none → loadSessionData (some s) = defaultLoaded) ∧
    (∀ s, parseJson s = some .null → loadSessionData (some s) = defaultLoaded) ∧
    (∀ s b, parseJson s = some (.bool b) →
      loadSessionData (some s) = defaultLoaded) ∧
    (∀ s n, parseJson s = some (.num n) →
      loadSessionData (some s) = defaultLoaded) ∧
    (∀ s t, parseJson s = some (.str t) →
      loadSessionData (some s) = defaultLoaded) ∧
    (∀ s xs, parseJson s = some (.arr xs) →
      loadSessionData (some s) = ⟨some (.arr []), none⟩) ∧
    (∀ s fs, parseJson s = some (.obj fs) →
      (falsyRead (fs.lookup "data") = true →
        (loadSessionData (some s)).dataField = some (.arr [])) ∧
      (∀ v, fs.lookup "data" = some v → jsFalsy v = false →
        (loadSessionData (some s)).dataField = some v) ∧
      (loadSessionData (some s)).metadataField = fs.lookup "metadata") := by
  refine ⟨rfl, ⟨_, rfl, rfl, rfl, rfl, rfl⟩, rfl, ?_, ?_, ?_, ?_, ?_, ?_, ?_⟩
  · intro s hp; simp [loadSessionData, hp]
  · intro s hp; simp [loadSessionData, hp]
  · intro s b hp; simp [loadSessionData, hp]
  · intro s n hp; simp [loadSessionData, hp]
  · intro s t hp; simp [loadSessionData, hp]
  · intro s xs hp; simp [loadSessionData, hp]
  · intro s fs hp
    refine ⟨?_, ?_, ?_⟩
    · intro hfalsy
      simp [loadSessionData, hp, hfalsy, lookup_setField_self]
    · intro v hv hnf
      simp [loadSessionData, hp, hv, falsyRead, hnf]
    · by_cases hfalsy : falsyRead (fs.lookup "data") = true
      · simp [loadSessionData, hp, hfalsy,
          lookup_setField_other fs "data" "metadata" (.arr []) (by decide)]
      · simp only [Bool.not_eq_true] at hfalsy
        simp [loadSessionData, hp, hfalsy]

/-- Counterexample for C10 as stated: the stored text `{"data":5}` decodes,
its truthy `data` survives the falsiness fix-up, and `loadSessionData`
returns it with `data` the number 5 — not an array — and with no
`metadata` object at all. -/
theorem c10_nonarray_data_kept :
    (loadSessionData (some "\x7b\"data\":5\x7d")).dataField = some (.num 5) ∧
    (loadSessionData (some "\x7b\"data\":5\x7d")).metadataField = none ∧
    (∀ xs, Json.num 5 ≠ Json.arr xs) := by
  refine ⟨rfl, rfl, fun xs h => Json.noConfusion h⟩

/-- Witness for C10: the parse-failure branch at the stored text `not json`,
and the object branch at the stored text `{}`. -/
theorem c10_load_session_data_witness :
    parseJson "not json" = none ∧
    loadSessionData (some "not json") = defaultLoaded ∧
    parseJson "\x7b\x7d" = some (.obj []) ∧
    (loadSessionData (some "\x7b\x7d")).dataField = some (.arr []) := by
  refine ⟨rfl, c10_load_session_data.2.2.2.1 "not json" rfl, rfl,
    (c10_load_session_data.2.2.2.2.2.2.2.2.2 "\x7b\x7d" [] rfl).1 rfl⟩

/-! ## JSON round trip: whitespace and digit lemmas -/

theorem skipWs_append_ws (pre cs : List Char) (h : ∀ c ∈ pre, isWs c = true) :
    skipWs (pre ++ cs) = skipWs cs := by
  induction pre with
  | nil => rfl
  | cons c pre ih =>
    simp only [List.cons_append, skipWs, h c (by simp), if_true]
    exact ih (fun c hc => h c (by simp [hc]))

theorem skipWs_cons_not (c : Char) (cs : List Char) (h : isWs c = false) :
    skipWs (c :: cs) = c :: cs := by
  simp [skipWs, h]

theorem nlIndent_ws (d : Nat) : ∀ c ∈ nlIndent d, isWs c = true := by
  intro c hc
  simp only [nlIndent, List.mem_cons] at hc
  rcases hc with rfl | hc
  · decide
  · rw [List.eq_of_mem_replicate hc]
    decide

theorem digitChar_spec (n : Nat) :
    digitChar n = '0' ∨ digitChar n = '1' ∨ digitChar n = '2' ∨
    digitChar n = '3' ∨ digitChar n = '4' ∨ digitChar n = '5' ∨
    digitChar n = '6' ∨ digitChar n = '7' ∨ digitChar n = '8' ∨
    digitChar n = '9' := by
  match n with
  | 0 => exact Or.inl rfl
  | 1 => exact Or.inr (Or.inl rfl)
  | 2 => exact Or.inr (Or.inr (Or.inl rfl))
  | 3 => exact Or.inr (Or.inr (Or.inr (Or.inl rfl)))
  | 4 => exact Or.inr (Or.inr (Or.inr (Or.inr (Or.inl rfl))))
  | 5 => exact Or.inr (Or.inr (Or.inr (Or.inr (Or.inr (Or.inl rfl)))))
  | 6 => exact Or.inr (Or.inr (Or.inr (Or.inr (Or.inr (Or.inr (Or.inl rfl))))))
  | 7 => exact Or.inr (Or.inr (Or.inr (Or.inr (Or.inr (Or.inr (Or.inr
      (Or.inl rfl)))))))
  | 8 => exact Or.inr (Or.inr (Or.inr (Or.inr (Or.inr (Or.inr (Or.inr
      (Or.inr (Or.inl rfl))))))))
  | m + 9 => exact Or.inr (Or.inr (Or.inr (Or.inr (Or.inr (Or.inr (Or.inr
      (Or.inr (Or.inr rfl))))))))

/-- The ten digit characters, as a predicate. -/
def isDigitChar (c : Char) : Prop :=
  c = '0' ∨ c = '1' ∨ c = '2' ∨ c = '3' ∨ c = '4' ∨ c = '5' ∨ c = '6' ∨
  c = '7' ∨ c = '8' ∨ c = '9'

theorem isDigitChar_isDigit {c : Char} (h : isDigitChar c) :
    c.isDigit = true := by
  rcases h with h | h | h | h | h | h | h | h | h | h <;> subst h <;> decide

theorem natDigits_head (n : Nat) :
    ∃ c cs, natDigits n = c :: cs ∧ isDigitChar c := by
  induction n using Nat.strong_induction_on with
  | _ n ih =>
    rw [natDigits]
    split
    · exact ⟨digitChar n, [], rfl, digitChar_spec n⟩
    · next h =>
      obtain ⟨c, cs, hc, hd⟩ := ih (n / 10) (Nat.div_lt_self (by omega) (by omega))
      exact ⟨c, cs ++ [digitChar (n % 10)], by rw [hc]; rfl, hd⟩

theorem natDigits_all_digits (n : Nat) :
    ∀ c ∈ natDigits n, c.isDigit = true := by
  induction n using Nat.strong_induction_on with
  | _ n ih =>
    rw [natDigits]
    split
    · intro c hc
      simp only [List.mem_singleton] at hc
      subst hc
      exact isDigitChar_isDigit (digitChar_spec n)
    · next h =>
      intro c hc
      rcases List.mem_append.mp hc with hmem | hmem
      · exact ih (n / 10) (Nat.div_lt_self (by omega) (by omega)) c hmem
      · simp only [List.mem_singleton] at hmem
        subst hmem
        exact isDigitChar_isDigit (digitChar_spec (n % 10))

theorem digitChar_toNat (n : Nat) (h : n < 10) :
    (digitChar n).toNat - 48 = n := by
  interval_cases n <;> decide

theorem digitsToNat_append_one (ds : List Char) (c : Char) :
    digitsToNat (ds ++ [c]) = 10 * digitsToNat ds + (c.toNat - 48) := by
  simp [digitsToNat, List.foldl_append]

theorem digitsToNat_natDigits (n : Nat) :
    digitsToNat (natDigits n) = n := by
  induction n using Nat.strong_induction_on with
  | _ n ih =>
    rw [natDigits]
    split
    · next h =>
      show digitsToNat [digitChar n] = n
      have : digitsToNat [digitChar n] = (digitChar n).toNat - 48 := by
        simp [digitsToNat]
      rw [this, digitChar_toNat n h]
    · next h =>
      rw [digitsToNat_append_one,
        ih (n / 10) (Nat.div_lt_self (by omega) (by omega)),
        digitChar_toNat (n % 10) (Nat.mod_lt _ (by omega))]
      omega

theorem takeWhile_digits (ds rest : List Char)
    (hds : ∀ c ∈ ds, c.isDigit = true) (hrest : numSafe rest) :
    (ds ++ rest).takeWhile Char.isDigit = ds ∧
    (ds ++ rest).dropWhile Char.isDigit = rest := by
  induction ds with
  | nil =>
    cases rest with
    | nil => exact ⟨rfl, rfl⟩
    | cons r rs =>
      have hr : r.isDigit = false := hrest r rfl
      simp [List.takeWhile_cons, List.dropWhile_cons, hr]
  | cons c cs ih =>
    have hc : c.isDigit = true := hds c (by simp)
    obtain ⟨h1, h2⟩ := ih (fun x hx => hds x (by simp [hx]))
    simp [List.takeWhile_cons, List.dropWhile_cons, hc, h1, h2]

theorem parseDigits_natDigits (n : Nat) (rest : List Char)
    (hrest : numSafe rest) :
    parseDigits (natDigits n ++ rest) = some (n, rest) := by
  obtain ⟨ht, hd⟩ := takeWhile_digits (natDigits n) rest
    (natDigits_all_digits n) hrest
  obtain ⟨c, cs, hcons, _⟩ := natDigits_head n
  simp only [parseDigits, ht, hd]
  rw [if_neg (by rw [hcons]; simp)]
  rw [digitsToNat_natDigits]

/-! ## JSON round trip: string literals -/

theorem hexVal_hexChar (d : Nat) (h : d < 16) : hexVal? (hexChar d) = some d := by
  interval_cases d <;> decide

theorem parseStrBody_closing (tl : List Char) :
    parseStrBody ('"' :: tl) = some ([], tl) := by
  conv_lhs => unfold parseStrBody
  simp

theorem parseStrBody_escape_step (e u : Char) (tl : List Char)
    (hu : escCode e = some u) (hne : ¬e = 'u') :
    parseStrBody ('\\' :: e :: tl) =
      (parseStrBody tl).map (fun p => (u :: p.1, p.2)) := by
  conv_lhs => unfold parseStrBody
  simp [hne, hu]

theorem parseStrBody_unicode_step (h3 h4 : Char) (a b : Nat) (tl : List Char)
    (ha : hexVal? h3 = some a) (hb : hexVal? h4 = some b) :
    parseStrBody ('\\' :: 'u' :: '0' :: '0' :: h3 :: h4 :: tl) =
      (parseStrBody tl).map (fun p => (Char.ofNat (a * 16 + b) :: p.1, p.2)) := by
  conv_lhs => unfold parseStrBody
  simp [ha, hb, show hexVal? '0' = some 0 from by decide]

theorem parseStrBody_literal (c : Char) (tl : List Char)
    (h1 : ¬c = '"') (h2 : ¬c = '\\') :
    parseStrBody (c :: tl) = (parseStrBody tl).map (fun p => (c :: p.1, p.2)) := by
  conv_lhs => unfold parseStrBody
  simp [h1, h2]

theorem parseStrBody_escapeList (s : List Char) :
    ∀ rest, parseStrBody (escapeList s ++ '"' :: rest) = some (s, rest) := by
  induction s with
  | nil =>
    intro rest
    simp only [escapeList, List.nil_append]
    exact parseStrBody_closing rest
  | cons c cs ih =>
    intro rest
    simp only [escapeList, List.append_assoc]
    unfold escapeChar
    split_ifs with h1 h2 h3 h4 h5 h6 h7 h8
    · subst h1
      simp only [List.cons_append, List.nil_append]
      rw [parseStrBody_escape_step '"' '"' _ (by decide) (by decide), ih rest]
      rfl
    · subst h2
      simp only [List.cons_append, List.nil_append]
      rw [parseStrBody_escape_step '\\' '\\' _ (by decide) (by decide), ih rest]
      rfl
    · subst h3
      simp only [List.cons_append, List.nil_append]
      rw [parseStrBody_escape_step 'b' '\x08' _ (by decide) (by decide), ih rest]
      rfl
    · subst h4
      simp only [List.cons_append, List.nil_append]
      rw [parseStrBody_escape_step 't' '\x09' _ (by decide) (by decide), ih rest]
      rfl
    · subst h5
      simp only [List.cons_append, List.nil_append]
      rw [parseStrBody_escape_step 'n' '\x0a' _ (by decide) (by decide), ih rest]
      rfl
    · subst h6
      simp only [List.cons_append, List.nil_append]
      rw [parseStrBody_escape_step 'f' '\x0c' _ (by decide) (by decide), ih rest]
      rfl
    · subst h7
      simp only [List.cons_append, List.nil_append]
      rw [parseStrBody_escape_step 'r' '\x0d' _ (by decide) (by decide), ih rest]
      rfl
    · have hdiv : c.toNat / 16 < 16 := by omega
      have hmod : c.toNat % 16 < 16 := Nat.mod_lt _ (by omega)
      simp only [List.cons_append, List.nil_append]
      rw [parseStrBody_unicode_step _ _ _ _ _ (hexVal_hexChar _ hdiv)
        (hexVal_hexChar _ hmod), ih rest]
      have hcode : c.toNat / 16 * 16 + c.toNat % 16 = c.toNat := by omega
      simp [hcode, Char.ofNat_toNat]
    · simp only [List.cons_append, List.nil_append]
      rw [parseStrBody_literal c _ h1 h2, ih rest]
      rfl

/-! ## JSON round trip: rendering shape facts -/

theorem isDigitChar_facts {c : Char} (h : isDigitChar c) :
    isWs c = false ∧ c.isDigit = true ∧ c ≠ 'n' ∧ c ≠ 't' ∧ c ≠ 'f' ∧
    c ≠ '"' ∧ c ≠ '-' ∧ c ≠ '[' ∧ c ≠ '\x7b' ∧ c ≠ ']' ∧ c ≠ '\x7d' := by
  rcases h with h | h | h | h | h | h | h | h | h | h <;> subst h <;> decide

theorem renderP_head (j : Json) (d : Nat) :
    ∃ c cs, renderP j d = c :: cs ∧ isWs c = false ∧ c ≠ ']' ∧ c ≠ '\x7d' := by
  cases j with
  | null =>
    exact ⟨'n', ['u', 'l', 'l'], by simp [renderP, litNull, litTrue, litFalse], by decide, by decide,
      by decide⟩
  | bool b =>
    cases b
    · exact ⟨'f', ['a', 'l', 's', 'e'], by simp [renderP, litNull, litTrue, litFalse], by decide,
        by decide, by decide⟩
    · exact ⟨'t', ['r', 'u', 'e'], by simp [renderP, litNull, litTrue, litFalse], by decide, by decide,
        by decide⟩
  | num n =>
    by_cases hn : n < 0
    · exact ⟨'-', natDigits n.natAbs, by simp [renderP, renderInt, hn],
        by decide, by decide, by decide⟩
    · obtain ⟨c, cs, hc, hdc⟩ := natDigits_head n.toNat
      obtain ⟨f1, _, _, _, _, _, _, _, _, f10, f11⟩ := isDigitChar_facts hdc
      exact ⟨c, cs, by simp [renderP, renderInt, hn, hc], f1, f10, f11⟩
  | str s =>
    exact ⟨'"', escapeList s.data ++ ['"'], by simp [renderP, renderStr],
      by decide, by decide, by decide⟩
  | arr xs =>
    cases xs with
    | nil => exact ⟨'[', [']'], by simp [renderP, litNull, litTrue, litFalse], by decide, by decide, by decide⟩
    | cons x xs =>
      exact ⟨'[', (nlIndent (d + 1) ++ renderP x (d + 1) ++
          renderItems xs (d + 1)) ++ nlIndent d ++ [']'],
        by simp [renderP, litNull, litTrue, litFalse], by decide, by decide, by decide⟩
  | obj fs =>
    cases fs with
    | nil =>
      exact ⟨'\x7b', ['\x7d'], by simp [renderP, litNull, litTrue, litFalse], by decide, by decide, by decide⟩
    | cons f fs =>
      exact ⟨'\x7b', (nlIndent (d + 1) ++ renderField f (d + 1) ++
          renderFields fs (d + 1)) ++ nlIndent d ++ ['\x7d'],
        by simp [renderP, litNull, litTrue, litFalse], by decide, by decide, by decide⟩

theorem needV_pos (j : Json) : 1 ≤ needV j := by
  cases j with
  | null => simp [needV]
  | bool b => simp [needV]
  | num n => simp [needV]
  | str s => simp [needV]
  | arr xs => cases xs <;> simp [needV]
  | obj fs => cases fs <;> simp [needV]

theorem needI_pos (x : Json) (xs : List Json) : 1 ≤ needI x xs := by
  cases xs <;> simp [needI]

theorem needF_pos (f : String × Json) (fs : List (String × Json)) :
    1 ≤ needF f fs := by
  obtain ⟨k, v⟩ := f
  cases fs <;> simp [needF]

mutual
theorem needV_le : ∀ (j : Json) (d : Nat), needV j ≤ (renderP j d).length
  | .null, d => by simp [needV, renderP, litNull]
  | .bool b, d => by cases b <;> simp [needV, renderP, litTrue, litFalse]
  | .num n, d => by
    by_cases hn : n < 0
    · simp [needV, renderP, renderInt, hn]
    · obtain ⟨c, cs, hc, _⟩ := natDigits_head n.toNat
      simp [needV, renderP, renderInt, hn, hc]
  | .str s, d => by simp [needV, renderP, renderStr]
  | .arr [], d => by simp [needV, renderP]
  | .arr (x :: xs), d => by
    have h := needI_le x xs (d + 1)
    simp only [needV, renderP, List.length_append, List.length_cons]
    omega
  | .obj [], d => by simp [needV, renderP]
  | .obj (f :: fs), d => by
    have h := needF_le f fs (d + 1)
    simp only [needV, renderP, List.length_append, List.length_cons]
    omega
termination_by j => sizeOf j

theorem needI_le : ∀ (x : Json) (xs : List Json) (d : Nat),
    needI x xs ≤ (renderP x d).length + (renderItems xs d).length + 1
  | x, [], d => by
    have h := needV_le x d
    simp only [needI, renderItems, List.length_nil]
    omega
  | x, y :: ys, d => by
    have h1 := needV_le x d
    have h2 := needI_le y ys d
    simp only [needI, renderItems, List.length_append, List.length_cons]
    omega
termination_by x xs => sizeOf x + sizeOf xs

theorem needF_le : ∀ (f : String × Json) (fs : List (String × Json)) (d : Nat),
    needF f fs ≤ (renderField f d).length + (renderFields fs d).length + 1
  | (k, v), [], d => by
    have h := needV_le v d
    simp only [needF, renderField, renderFields, List.length_nil,
      List.length_append, List.length_cons]
    omega
  | (k, v), g :: gs, d => by
    have h1 := needV_le v d
    have h2 := needF_le g gs d
    simp only [needF, renderField, renderFields, List.length_nil,
      List.length_append, List.length_cons]
    omega
termination_by f fs => sizeOf f + sizeOf fs
end

/-! ## JSON round trip: one-step parser reductions -/

theorem parseVal_null_step (fuel : Nat) (cs rest : List Char)
    (h : skipWs cs = 'n' :: 'u' :: 'l' :: 'l' :: rest) :
    parseVal (fuel + 1) cs = some (.null, rest) := by
  conv_lhs => unfold parseVal
  rw [h]
  simp

theorem parseVal_true_step (fuel : Nat) (cs rest : List Char)
    (h : skipWs cs = 't' :: 'r' :: 'u' :: 'e' :: rest) :
    parseVal (fuel + 1) cs = some (.bool true, rest) := by
  conv_lhs => unfold parseVal
  rw [h]
  simp

theorem parseVal_false_step (fuel : Nat) (cs rest : List Char)
    (h : skipWs cs = 'f' :: 'a' :: 'l' :: 's' :: 'e' :: rest) :
    parseVal (fuel + 1) cs = some (.bool false, rest) := by
  conv_lhs => unfold parseVal
  rw [h]
  simp

theorem parseVal_str_step (fuel : Nat) (cs rest1 content r : List Char)
    (h : skipWs cs = '"' :: rest1)
    (hps : parseStrBody rest1 = some (content, r)) :
    parseVal (fuel + 1) cs = some (.str (String.mk content), r) := by
  conv_lhs => unfold parseVal
  rw [h]
  simp [hps]

theorem parseVal_neg_step (fuel : Nat) (cs rest1 r : List Char) (m : Nat)
    (h : skipWs cs = '-' :: rest1)
    (hpd : parseDigits rest1 = some (m, r)) :
    parseVal (fuel + 1) cs = some (.num (-(m : Int)), r) := by
  conv_lhs => unfold parseVal
  rw [h]
  simp [hpd]

theorem parseVal_digit_step (fuel : Nat) (cs rest1 r : List Char)
    (c0 : Char) (m : Nat)
    (h : skipWs cs = c0 :: rest1) (hdc : isDigitChar c0)
    (hpd : parseDigits (c0 :: rest1) = some (m, r)) :
    parseVal (fuel + 1) cs = some (.num (m : Int), r) := by
  obtain ⟨_, f2, f3, f4, f5, f6, f7, f8, f9, _, _⟩ := isDigitChar_facts hdc
  conv_lhs => unfold parseVal
  rw [h]
  simp [f2, f3, f4, f5, f6, f7, f8, f9, hpd]

theorem parseVal_arr_nil_step (fuel : Nat) (cs rest0 r2 : List Char)
    (h : skipWs cs = '[' :: rest0) (h2 : skipWs rest0 = ']' :: r2) :
    parseVal (fuel + 1) cs = some (.arr [], r2) := by
  conv_lhs => unfold parseVal
  rw [h]
  simp only [if_neg (by decide : ¬('[' = 'n')), if_neg (by decide : ¬('[' = 't')),
    if_neg (by decide : ¬('[' = 'f')), if_neg (by decide : ¬('[' = '"')),
    if_neg (by decide : ¬('[' = '-')), if_pos (rfl : '[' = '['), if_true]
  rw [h2]
  rfl

theorem parseVal_arr_cons_step (fuel : Nat) (cs rest0 X r : List Char)
    (c0 : Char) (xs : List Json)
    (h : skipWs cs = '[' :: rest0) (h2 : skipWs rest0 = c0 :: X)
    (hne : c0 ≠ ']') (hitems : parseItems fuel rest0 = some (xs, r)) :
    parseVal (fuel + 1) cs = some (.arr xs, r) := by
  conv_lhs => unfold parseVal
  rw [h]
  simp only [if_neg (by decide : ¬('[' = 'n')), if_neg (by decide : ¬('[' = 't')),
    if_neg (by decide : ¬('[' = 'f')), if_neg (by decide : ¬('[' = '"')),
    if_neg (by decide : ¬('[' = '-')), if_pos (rfl : '[' = '['), if_true]
  rw [h2]
  split
  · rename_i r2 heq
    injection heq with hh1 hh2
    exact absurd hh1 hne
  · rw [hitems]

theorem parseVal_obj_nil_step (fuel : Nat) (cs rest0 r2 : List Char)
    (h : skipWs cs = '\x7b' :: rest0) (h2 : skipWs rest0 = '\x7d' :: r2) :
    parseVal (fuel + 1) cs = some (.obj [], r2) := by
  conv_lhs => unfold parseVal
  rw [h]
  simp only [if_neg (by decide : ¬('\x7b' = 'n')),
    if_neg (by decide : ¬('\x7b' = 't')), if_neg (by decide : ¬('\x7b' = 'f')),
    if_neg (by decide : ¬('\x7b' = '"')), if_neg (by decide : ¬('\x7b' = '-')),
    if_neg (by decide : ¬('\x7b' = '[')), if_pos (rfl : '\x7b' = '\x7b'), if_true]
  rw [h2]
  rfl

theorem parseVal_obj_cons_step (fuel : Nat) (cs rest0 X r : List Char)
    (c0 : Char) (fs : List (String × Json))
    (h : skipWs cs = '\x7b' :: rest0) (h2 : skipWs rest0 = c0 :: X)
    (hne : c0 ≠ '\x7d') (hflds : parseFields fuel rest0 = some (fs, r)) :
    parseVal (fuel + 1) cs = some (.obj fs, r) := by
  conv_lhs => unfold parseVal
  rw [h]
  simp only [if_neg (by decide : ¬('\x7b' = 'n')),
    if_neg (by decide : ¬('\x7b' = 't')), if_neg (by decide : ¬('\x7b' = 'f')),
    if_neg (by decide : ¬('\x7b' = '"')), if_neg (by decide : ¬('\x7b' = '-')),
    if_neg (by decide : ¬('\x7b' = '[')), if_pos (rfl : '\x7b' = '\x7b'), if_true]
  rw [h2]
  split
  · rename_i r2 heq
    injection heq with hh1 hh2
    exact absurd hh1 hne
  · rw [hflds]

theorem parseItems_last_step (fuel : Nat) (cs r r2 : List Char) (v : Json)
    (hv : parseVal fuel cs = some (v, r)) (hr : skipWs r = ']' :: r2) :
    parseItems (fuel + 1) cs = some ([v], r2) := by
  conv_lhs => unfold parseItems
  rw [hv]
  simp only
  rw [hr]
  rfl

theorem parseItems_cons_step (fuel : Nat) (cs r r2 r3 : List Char) (v : Json)
    (vs : List Json)
    (hv : parseVal fuel cs = some (v, r)) (hr : skipWs r = ',' :: r2)
    (hrec : parseItems fuel r2 = some (vs, r3)) :
    parseItems (fuel + 1) cs = some (v :: vs, r3) := by
  conv_lhs => unfold parseItems
  rw [hv]
  simp only
  rw [hr]
  simp only
  rw [hrec]

theorem parseFields_last_step (fuel : Nat) (cs rest1 r1 r2 r3 r4 k : List Char)
    (v : Json)
    (hsk : skipWs cs = '"' :: rest1)
    (hkey : parseStrBody rest1 = some (k, r1))
    (hcolon : skipWs r1 = ':' :: r2)
    (hval : parseVal fuel r2 = some (v, r3))
    (hend : skipWs r3 = '\x7d' :: r4) :
    parseFields (fuel + 1) cs = some ([(String.mk k, v)], r4) := by
  conv_lhs => unfold parseFields
  rw [hsk]
  simp only
  rw [hkey]
  simp only
  rw [hcolon]
  simp only
  rw [hval]
  simp only
  rw [hend]
  rfl

theorem parseFields_cons_step (fuel : Nat) (cs rest1 r1 r2 r3 r4 r5 k : List Char)
    (v : Json) (fs : List (String × Json))
    (hsk : skipWs cs = '"' :: rest1)
    (hkey : parseStrBody rest1 = some (k, r1))
    (hcolon : skipWs r1 = ':' :: r2)
    (hval : parseVal fuel r2 = some (v, r3))
    (hcomma : skipWs r3 = ',' :: r4)
    (hrec : parseFields fuel r4 = some (fs, r5)) :
    parseFields (fuel + 1) cs = some ((String.mk k, v) :: fs, r5) := by
  conv_lhs => unfold parseFields
  rw [hsk]
  simp only
  rw [hkey]
  simp only
  rw [hcolon]
  simp only
  rw [hval]
  simp only
  rw [hcomma]
  simp only
  rw [hrec]

/-! ## JSON round trip: the parser inverts the pretty renderer -/

theorem skipWs_pre_cons (pre : List Char) (c : Char) (tl : List Char)
    (hpre : ∀ x ∈ pre, isWs x = true) (hc : isWs c = false) :
    skipWs (pre ++ (c :: tl)) = c :: tl := by
  rw [skipWs_append_ws _ _ hpre, skipWs_cons_not _ _ hc]

theorem numSafe_items_tail (xs : List Json) (d dc : Nat) (rest : List Char) :
    numSafe (renderItems xs d ++ (nlIndent dc ++ (']' :: rest))) := by
  cases xs with
  | nil =>
    intro c hc
    simp only [renderItems, List.nil_append, nlIndent, List.cons_append,
      List.head?_cons, Option.some.injEq] at hc
    subst hc
    decide
  | cons y ys =>
    intro c hc
    simp only [renderItems, List.cons_append, List.head?_cons,
      Option.some.injEq] at hc
    subst hc
    decide

theorem numSafe_fields_tail (fs : List (String × Json)) (d dc : Nat)
    (rest : List Char) :
    numSafe (renderFields fs d ++ (nlIndent dc ++ ('\x7d' :: rest))) := by
  cases fs with
  | nil =>
    intro c hc
    simp only [renderFields, List.nil_append, nlIndent, List.cons_append,
      List.head?_cons, Option.some.injEq] at hc
    subst hc
    decide
  | cons g gs =>
    intro c hc
    simp only [renderFields, List.cons_append, List.head?_cons,
      Option.some.injEq] at hc
    subst hc
    decide

theorem parse_render_main : ∀ fuel : Nat,
    (∀ (j : Json) (d : Nat) (pre rest : List Char),
      (∀ c ∈ pre, isWs c = true) → numSafe rest → needV j ≤ fuel →
      parseVal fuel (pre ++ (renderP j d ++ rest)) = some (j, rest)) ∧
    (∀ (x : Json) (xs : List Json) (d dc : Nat) (pre rest : List Char),
      (∀ c ∈ pre, isWs c = true) → numSafe rest → needI x xs ≤ fuel →
      parseItems fuel
        (pre ++ (renderP x d ++ (renderItems xs d ++
          (nlIndent dc ++ (']' :: rest))))) = some (x :: xs, rest)) ∧
    (∀ (f : String × Json) (fs : List (String × Json)) (d dc : Nat)
      (pre rest : List Char),
      (∀ c ∈ pre, isWs c = true) → numSafe rest → needF f fs ≤ fuel →
      parseFields fuel
        (pre ++ (renderField f d ++ (renderFields fs d ++
          (nlIndent dc ++ ('\x7d' :: rest))))) = some (f :: fs, rest)) := by
  intro fuel
  induction fuel with
  | zero =>
    refine ⟨?_, ?_, ?_⟩
    · intro j d pre rest hpre hrest hfuel
      exact absurd hfuel (by have := needV_pos j; omega)
    · intro x xs d dc pre rest hpre hrest hfuel
      exact absurd hfuel (by have := needI_pos x xs; omega)
    · intro f fs d dc pre rest hpre hrest hfuel
      exact absurd hfuel (by have := needF_pos f fs; omega)
  | succ fuel ih =>
    obtain ⟨ihP, ihQ, ihR⟩ := ih
    refine ⟨?_, ?_, ?_⟩
    · -- parseVal recovers a rendered value
      intro j d pre rest hpre hrest hfuel
      cases j with
      | null =>
        have hT : renderP .null d ++ rest = 'n' :: ('u' :: 'l' :: 'l' :: rest) := by
          simp [renderP, litNull, litTrue, litFalse]
        rw [show pre ++ (renderP .null d ++ rest) =
          pre ++ ('n' :: ('u' :: 'l' :: 'l' :: rest)) from by rw [hT]]
        exact parseVal_null_step fuel _ rest
          (skipWs_pre_cons pre _ _ hpre (by decide))
      | bool b =>
        cases b with
        | true =>
          have hT : renderP (.bool true) d ++ rest =
              't' :: ('r' :: 'u' :: 'e' :: rest) := by
            simp [renderP, litNull, litTrue, litFalse]
          rw [show pre ++ (renderP (.bool true) d ++ rest) =
            pre ++ ('t' :: ('r' :: 'u' :: 'e' :: rest)) from by rw [hT]]
          exact parseVal_true_step fuel _ rest
            (skipWs_pre_cons pre _ _ hpre (by decide))
        | false =>
          have hT : renderP (.bool false) d ++ rest =
              'f' :: ('a' :: 'l' :: 's' :: 'e' :: rest) := by
            simp [renderP, litNull, litTrue, litFalse]
          rw [show pre ++ (renderP (.bool false) d ++ rest) =
            pre ++ ('f' :: ('a' :: 'l' :: 's' :: 'e' :: rest)) from by rw [hT]]
          exact parseVal_false_step fuel _ rest
            (skipWs_pre_cons pre _ _ hpre (by decide))
      | num n =>
        by_cases hn : n < 0
        · have hT : renderP (.num n) d ++ rest =
              '-' :: (natDigits n.natAbs ++ rest) := by
            simp [renderP, renderInt, hn]
          rw [show pre ++ (renderP (.num n) d ++ rest) =
            pre ++ ('-' :: (natDigits n.natAbs ++ rest)) from by rw [hT]]
          have hstep := parseVal_neg_step fuel
            (pre ++ ('-' :: (natDigits n.natAbs ++ rest)))
            (natDigits n.natAbs ++ rest) rest n.natAbs
            (skipWs_pre_cons pre _ _ hpre (by decide))
            (parseDigits_natDigits n.natAbs rest hrest)
          have heq : Json.num (-(n.natAbs : Int)) = Json.num n := by
            congr 1
            omega
          rw [heq] at hstep
          exact hstep
        · obtain ⟨c0, cs0, hnd, hdc⟩ := natDigits_head n.toNat
          obtain ⟨f1, _, _, _, _, _, _, _, _, _, _⟩ := isDigitChar_facts hdc
          have hT : renderP (.num n) d ++ rest = c0 :: (cs0 ++ rest) := by
            simp [renderP, renderInt, hn, hnd]
          rw [show pre ++ (renderP (.num n) d ++ rest) =
            pre ++ (c0 :: (cs0 ++ rest)) from by rw [hT]]
          have hpd : parseDigits (c0 :: (cs0 ++ rest)) = some (n.toNat, rest) := by
            rw [show c0 :: (cs0 ++ rest) = natDigits n.toNat ++ rest from by
              rw [hnd]; rfl]
            exact parseDigits_natDigits n.toNat rest hrest
          have hstep := parseVal_digit_step fuel (pre ++ (c0 :: (cs0 ++ rest)))
            (cs0 ++ rest) rest c0 n.toNat
            (skipWs_pre_cons pre _ _ hpre f1) hdc hpd
          have heq : Json.num ((n.toNat : Nat) : Int) = Json.num n := by
            congr 1
            omega
          rw [heq] at hstep
          exact hstep
      | str s =>
        have hT : renderP (.str s) d ++ rest =
            '"' :: (escapeList s.data ++ ('"' :: rest)) := by
          simp [renderP, renderStr, List.append_assoc]
        rw [show pre ++ (renderP (.str s) d ++ rest) =
          pre ++ ('"' :: (escapeList s.data ++ ('"' :: rest))) from by rw [hT]]
        exact parseVal_str_step fuel _ _ s.data rest
          (skipWs_pre_cons pre _ _ hpre (by decide))
          (parseStrBody_escapeList s.data rest)
      | arr xs =>
        cases xs with
        | nil =>
          have hT : renderP (.arr []) d ++ rest = '[' :: (']' :: rest) := by
            simp [renderP, litNull, litTrue, litFalse]
          rw [show pre ++ (renderP (.arr []) d ++ rest) =
            pre ++ ('[' :: (']' :: rest)) from by rw [hT]]
          exact parseVal_arr_nil_step fuel _ _ rest
            (skipWs_pre_cons pre _ _ hpre (by decide))
            (skipWs_cons_not _ _ (by decide))
        | cons x xs =>
          have hfuel' : needI x xs ≤ fuel := by
            simp only [needV] at hfuel
            omega
          have hT : renderP (.arr (x :: xs)) d ++ rest =
              '[' :: (nlIndent (d + 1) ++ (renderP x (d + 1) ++
                (renderItems xs (d + 1) ++ (nlIndent d ++ (']' :: rest))))) := by
            simp [renderP, List.append_assoc]
          rw [show pre ++ (renderP (.arr (x :: xs)) d ++ rest) =
            pre ++ ('[' :: (nlIndent (d + 1) ++ (renderP x (d + 1) ++
              (renderItems xs (d + 1) ++ (nlIndent d ++ (']' :: rest))))))
            from by rw [hT]]
          obtain ⟨c0, cs0, hx, hxw, hxr, _⟩ := renderP_head x (d + 1)
          have h2 : skipWs (nlIndent (d + 1) ++ (renderP x (d + 1) ++
              (renderItems xs (d + 1) ++ (nlIndent d ++ (']' :: rest))))) =
              c0 :: (cs0 ++ (renderItems xs (d + 1) ++
                (nlIndent d ++ (']' :: rest)))) := by
            rw [skipWs_append_ws _ _ (nlIndent_ws (d + 1)), hx, List.cons_append,
              skipWs_cons_not _ _ hxw]
          exact parseVal_arr_cons_step fuel _ _ _ _ c0 (x :: xs)
            (skipWs_pre_cons pre _ _ hpre (by decide)) h2 hxr
            (ihQ x xs (d + 1) d (nlIndent (d + 1)) rest (nlIndent_ws (d + 1))
              hrest hfuel')
      | obj fs =>
        cases fs with
        | nil =>
          have hT : renderP (.obj []) d ++ rest = '\x7b' :: ('\x7d' :: rest) := by
            simp [renderP, litNull, litTrue, litFalse]
          rw [show pre ++ (renderP (.obj []) d ++ rest) =
            pre ++ ('\x7b' :: ('\x7d' :: rest)) from by rw [hT]]
          exact parseVal_obj_nil_step fuel _ _ rest
            (skipWs_pre_cons pre _ _ hpre (by decide))
            (skipWs_cons_not _ _ (by decide))
        | cons f fs =>
          obtain ⟨k, v⟩ := f
          have hfuel' : needF (k, v) fs ≤ fuel := by
            simp only [needV] at hfuel
            omega
          have hT : renderP (.obj ((k, v) :: fs)) d ++ rest =
              '\x7b' :: (nlIndent (d + 1) ++ (renderField (k, v) (d + 1) ++
                (renderFields fs (d + 1) ++ (nlIndent d ++ ('\x7d' :: rest))))) := by
            simp [renderP, List.append_assoc]
          rw [show pre ++ (renderP (.obj ((k, v) :: fs)) d ++ rest) =
            pre ++ ('\x7b' :: (nlIndent (d + 1) ++ (renderField (k, v) (d + 1) ++
              (renderFields fs (d + 1) ++ (nlIndent d ++ ('\x7d' :: rest))))))
            from by rw [hT]]
          have hfe : renderField (k, v) (d + 1) ++
              (renderFields fs (d + 1) ++ (nlIndent d ++ ('\x7d' :: rest))) =
              '"' :: (escapeList k.data ++ ('"' :: (':' :: (' ' ::
                (renderP v (d + 1) ++ (renderFields fs (d + 1) ++
                  (nlIndent d ++ ('\x7d' :: rest)))))))) := by
            simp [renderField, renderStr, List.append_assoc]
          have h2 : skipWs (nlIndent (d + 1) ++ (renderField (k, v) (d + 1) ++
              (renderFields fs (d + 1) ++ (nlIndent d ++ ('\x7d' :: rest))))) =
              '"' :: (escapeList k.data ++ ('"' :: (':' :: (' ' ::
                (renderP v (d + 1) ++ (renderFields fs (d + 1) ++
                  (nlIndent d ++ ('\x7d' :: rest)))))))) := by
            rw [skipWs_append_ws _ _ (nlIndent_ws (d + 1)), hfe,
              skipWs_cons_not _ _ (by decide)]
          exact parseVal_obj_cons_step fuel _ _ _ _ '"' ((k, v) :: fs)
            (skipWs_pre_cons pre _ _ hpre (by decide)) h2 (by decide)
            (ihR (k, v) fs (d + 1) d (nlIndent (d + 1)) rest
              (nlIndent_ws (d + 1)) hrest hfuel')
    · -- parseItems recovers a rendered element list
      intro x xs d dc pre rest hpre hrest hfuel
      have hxfuel : needV x ≤ fuel := by
        cases xs <;> simp only [needI] at hfuel <;> omega
      have hv : parseVal fuel (pre ++ (renderP x d ++ (renderItems xs d ++
          (nlIndent dc ++ (']' :: rest))))) =
          some (x, renderItems xs d ++ (nlIndent dc ++ (']' :: rest))) :=
        ihP x d pre _ hpre (numSafe_items_tail xs d dc rest) hxfuel
      cases xs with
      | nil =>
        have hr : skipWs (renderItems ([] : List Json) d ++
            (nlIndent dc ++ (']' :: rest))) = ']' :: rest := by
          rw [show renderItems ([] : List Json) d ++
            (nlIndent dc ++ (']' :: rest)) = nlIndent dc ++ (']' :: rest) from by
              simp [renderItems]]
          exact skipWs_pre_cons _ _ _ (nlIndent_ws dc) (by decide)
        exact parseItems_last_step fuel _ _ rest x hv hr
      | cons y ys =>
        have hyfuel : needI y ys ≤ fuel := by
          simp only [needI] at hfuel
          omega
        have hTe : renderItems (y :: ys) d ++ (nlIndent dc ++ (']' :: rest)) =
            ',' :: (nlIndent d ++ (renderP y d ++ (renderItems ys d ++
              (nlIndent dc ++ (']' :: rest))))) := by
          simp [renderItems, List.append_assoc]
        have hr : skipWs (renderItems (y :: ys) d ++
            (nlIndent dc ++ (']' :: rest))) =
            ',' :: (nlIndent d ++ (renderP y d ++ (renderItems ys d ++
              (nlIndent dc ++ (']' :: rest))))) := by
          rw [hTe]
          exact skipWs_cons_not _ _ (by decide)
        exact parseItems_cons_step fuel _ _ _ rest x (y :: ys) hv hr
          (ihQ y ys d dc (nlIndent d) rest (nlIndent_ws d) hrest hyfuel)
    · -- parseFields recovers a rendered member list
      intro f fs d dc pre rest hpre hrest hfuel
      obtain ⟨k, v⟩ := f
      have hvfuel : needV v ≤ fuel := by
        cases fs <;> simp only [needF] at hfuel <;> omega
      have hfe : renderField (k, v) d ++ (renderFields fs d ++
          (nlIndent dc ++ ('\x7d' :: rest))) =
          '"' :: (escapeList k.data ++ ('"' :: (':' :: (' ' ::
            (renderP v d ++ (renderFields fs d ++
              (nlIndent dc ++ ('\x7d' :: rest)))))))) := by
        simp [renderField, renderStr, List.append_assoc]
      rw [show pre ++ (renderField (k, v) d ++ (renderFields fs d ++
        (nlIndent dc ++ ('\x7d' :: rest)))) =
        pre ++ ('"' :: (escapeList k.data ++ ('"' :: (':' :: (' ' ::
          (renderP v d ++ (renderFields fs d ++
            (nlIndent dc ++ ('\x7d' :: rest))))))))) from by rw [hfe]]
      have hsk : skipWs (pre ++ ('"' :: (escapeList k.data ++ ('"' :: (':' :: (' ' ::
          (renderP v d ++ (renderFields fs d ++
            (nlIndent dc ++ ('\x7d' :: rest)))))))))) =
          '"' :: (escapeList k.data ++ ('"' :: (':' :: (' ' ::
            (renderP v d ++ (renderFields fs d ++
              (nlIndent dc ++ ('\x7d' :: rest)))))))) :=
        skipWs_pre_cons pre _ _ hpre (by decide)
      have hkey := parseStrBody_escapeList k.data
        (':' :: (' ' :: (renderP v d ++ (renderFields fs d ++
          (nlIndent dc ++ ('\x7d' :: rest))))))
      have hcolon : skipWs (':' :: (' ' :: (renderP v d ++ (renderFields fs d ++
          (nlIndent dc ++ ('\x7d' :: rest)))))) =
          ':' :: (' ' :: (renderP v d ++ (renderFields fs d ++
            (nlIndent dc ++ ('\x7d' :: rest))))) :=
        skipWs_cons_not _ _ (by decide)
      have hsp : ∀ c ∈ ([' '] : List Char), isWs c = true := by
        intro c hc
        simp only [List.mem_singleton] at hc
        subst hc
        decide
      have hval : parseVal fuel (' ' :: (renderP v d ++ (renderFields fs d ++
          (nlIndent dc ++ ('\x7d' :: rest))))) =
          some (v, renderFields fs d ++ (nlIndent dc ++ ('\x7d' :: rest))) :=
        ihP v d [' '] _ hsp (numSafe_fields_tail fs d dc rest) hvfuel
      cases fs with
      | nil =>
        have hend : skipWs (renderFields ([] : List (String × Json)) d ++
            (nlIndent dc ++ ('\x7d' :: rest))) = '\x7d' :: rest := by
          rw [show renderFields ([] : List (String × Json)) d ++
            (nlIndent dc ++ ('\x7d' :: rest)) =
            nlIndent dc ++ ('\x7d' :: rest) from by simp [renderFields]]
          exact skipWs_pre_cons _ _ _ (nlIndent_ws dc) (by decide)
        exact parseFields_last_step fuel _ _ _ _ _ rest k.data v hsk hkey
          hcolon hval hend
      | cons g gs =>
        have hgfuel : needF g gs ≤ fuel := by
          simp only [needF] at hfuel
          omega
        have hTe : renderFields (g :: gs) d ++ (nlIndent dc ++ ('\x7d' :: rest)) =
            ',' :: (nlIndent d ++ (renderField g d ++ (renderFields gs d ++
              (nlIndent dc ++ ('\x7d' :: rest))))) := by
          simp [renderFields, List.append_assoc]
        have hcomma : skipWs (renderFields (g :: gs) d ++
            (nlIndent dc ++ ('\x7d' :: rest))) =
            ',' :: (nlIndent d ++ (renderField g d ++ (renderFields gs d ++
              (nlIndent dc ++ ('\x7d' :: rest))))) := by
          rw [hTe]
          exact skipWs_cons_not _ _ (by decide)
        exact parseFields_cons_step fuel _ _ _ _ _ _ rest k.data v (g :: gs)
          hsk hkey hcolon hval hcomma
          (ihR g gs d dc (nlIndent d) rest (nlIndent_ws d) hrest hgfuel)

theorem parseJson_stringify2 (j : Json) : parseJson (stringify2 j) = some j := by
  have hmain := (parse_render_main ((renderP j 0).length + 1)).1 j 0 [] []
    (by intro c hc; simp at hc) (by intro c hc; simp at hc)
    (by have := needV_le j 0; omega)
  simp only [List.nil_append, List.append_nil] at hmain
  have hlen : (stringify2 j).length = (renderP j 0).length := rfl
  have hdata : (stringify2 j).data = renderP j 0 := rfl
  unfold parseJson
  rw [hlen, hdata, hmain]
  rfl

/-- C7: round-trip of the export document.  Re-parsing the exact text
`exportJSON` serializes (`JSON.stringify({...sessionData, exportTimestamp,
exportDate}, null, 2)`) recovers the export document itself; its `data`
member is literally the same serialized array as in the persisted session
document (`sessionToJson`), with one element per buffered reading, so the
re-parsed `data` array has the same length and the same field values as the
array persisted at export time. -/
theorem c7_export_roundtrip (sd : SessionData) (ts : Int) (date : String) :
    parseJson (exportText sd ts date) = some (exportDoc sd ts date) ∧
    getField (exportDoc sd ts date) "data" =
      some (.arr (sd.data.map readingToJson)) ∧
    getField (sessionToJson sd) "data" =
      some (.arr (sd.data.map readingToJson)) ∧
    (sd.data.map readingToJson).length = sd.data.length := by
  refine ⟨parseJson_stringify2 (exportDoc sd ts date), rfl, rfl, by simp⟩
